import Mathlib

/-!
Verification development for the schema-inference and statistical-analysis
pipeline of the analytics engine (`analytics_engine/analysis_engine.py`,
`analytics_engine/data_summary.py`, `analytics_engine/insights_generator.py`).

The pandas dataframe is embedded as a list of named, typed columns whose cells
are optional values (`none` models a missing cell / NaN).  All float
arithmetic of the source is embedded as exact rational arithmetic; quantities
of the form `q * sqrt r` (standard deviations, Pearson coefficients, skewness)
are represented exactly by the pair `SqrtQ` with decidable order comparisons
against rationals.  Python's `ZeroDivisionError` and pandas' NaN propagation
are embedded with `Except` and `Option`.
-/

namespace AnalyticsEngine

/-- A cell value of a dataframe column: a (float/int) number or an object
(string).  A missing cell (NaN) is `Option.none` at the use site. -/
inductive PVal where
  | num (q : ℚ)
  | str (s : String)
deriving DecidableEq, Repr

/-- The pandas dtype of a column, as dispatched on by `_analyze_schema`
(`pd.api.types.is_datetime64_any_dtype` / `is_bool_dtype` /
`is_numeric_dtype` / `dtype == 'object'` / anything else). -/
inductive DType where
  | datetime
  | boolean
  | numeric
  | obj
  | other
deriving DecidableEq, Repr

/-- One dataframe column: its name, dtype and cells (`none` = missing). -/
structure PColumn where
  name : String
  dtype : DType
  values : List (Option PVal)
deriving DecidableEq, Repr

/-- The dataframe handed to the pipeline by the loader/cleaner collaborator.
`memoryMB` abstracts `df.memory_usage(deep=True).sum()/1024/1024`, a pandas
internal not derivable from cell values. -/
structure PDataFrame where
  cols : List PColumn
  memoryMB : ℚ
deriving DecidableEq, Repr

/-- `len(df)`: the number of rows (length of the first column; pandas frames
are rectangular). -/
def PDataFrame.nRows (df : PDataFrame) : ℕ :=
  match df.cols with
  | [] => 0
  | c :: _ => c.values.length

/-- `len(df.columns)`. -/
def PDataFrame.nCols (df : PDataFrame) : ℕ := df.cols.length

/-- `df.empty`: true iff either axis has length 0. -/
def PDataFrame.isEmptyDF (df : PDataFrame) : Bool :=
  df.cols.isEmpty || df.nRows = 0

/-- Every column has the same number of cells (pandas invariant). -/
def PDataFrame.Rectangular (df : PDataFrame) : Prop :=
  ∀ c ∈ df.cols, c.values.length = df.nRows

/-- `df[name]`: the first column carrying the given name. -/
def PDataFrame.findCol (df : PDataFrame) (name : String) : Option PColumn :=
  df.cols.find? (fun c => c.name = name)

/-- The non-missing numeric cells of a column, in row order
(`df[column].dropna()` for a numeric-dtype column). -/
def PColumn.numValues (c : PColumn) : List ℚ :=
  c.values.filterMap (fun v =>
    match v with
    | some (.num q) => some q
    | _ => none)

/-- The non-missing cells of a column, in row order (`dropna` for an
object-dtype column). -/
def PColumn.nonNull (c : PColumn) : List PVal :=
  c.values.filterMap id

/-- `Series.nunique()`: the number of distinct non-missing values. -/
def PColumn.nunique (c : PColumn) : ℕ :=
  c.nonNull.dedup.length

/-- Whether a cell value is a number. -/
def PVal.isNum : PVal → Bool
  | .num _ => true
  | .str _ => false

/-- A column is well typed for numeric analysis when every present cell is a
number (the loader/cleaner collaborator guarantees this for numeric dtypes). -/
def PColumn.NumericTyped (c : PColumn) : Prop :=
  ∀ v ∈ c.values, (v.map PVal.isNum).getD true = true

instance (c : PColumn) : Decidable c.NumericTyped :=
  inferInstanceAs (Decidable (∀ v ∈ c.values, (v.map PVal.isNum).getD true = true))

/-! ### Exact representation of `q * sqrt r` values -/

/-- The exact value `coef * sqrt rad` (with `0 ≤ rad`).  Standard deviations,
coefficients of variation, Pearson coefficients and skewness of the source are
of this shape over the rationals. -/
structure SqrtQ where
  coef : ℚ
  rad : ℚ
deriving DecidableEq, Repr

/-- The zero value (also the `0.0` the source substitutes for undefined
statistics). -/
def SqrtQ.zero : SqrtQ := ⟨0, 0⟩

/-- Sign of the represented value: `0`, `1` or `-1`. -/
def SqrtQ.sgn (s : SqrtQ) : ℤ :=
  if s.rad = 0 ∨ s.coef = 0 then 0 else if 0 < s.coef then 1 else -1

/-- Decides `coef * sqrt rad < t`. -/
def SqrtQ.ltQ (s : SqrtQ) (t : ℚ) : Bool :=
  if s.sgn = 0 then 0 < t
  else if s.sgn = 1 then 0 < t ∧ s.coef ^ 2 * s.rad < t ^ 2
  else 0 < t ∨ (0 ≥ t ∧ s.coef ^ 2 * s.rad > t ^ 2)

/-- Decides `coef * sqrt rad > t`. -/
def SqrtQ.gtQ (s : SqrtQ) (t : ℚ) : Bool :=
  if s.sgn = 0 then t < 0
  else if s.sgn = 1 then t < 0 ∨ (t ≥ 0 ∧ s.coef ^ 2 * s.rad > t ^ 2)
  else t < 0 ∧ s.coef ^ 2 * s.rad < t ^ 2

/-- Decides `|coef * sqrt rad| < t`. -/
def SqrtQ.absLtQ (s : SqrtQ) (t : ℚ) : Bool :=
  0 < t ∧ s.coef ^ 2 * s.rad < t ^ 2

/-- Decides `|coef * sqrt rad| > t`. -/
def SqrtQ.absGtQ (s : SqrtQ) (t : ℚ) : Bool :=
  t < 0 ∨ s.coef ^ 2 * s.rad > t ^ 2

/-- Division of the represented value by a rational scalar. -/
def SqrtQ.divQ (s : SqrtQ) (q : ℚ) : SqrtQ := ⟨s.coef / q, s.rad⟩

/-- The real number represented by `s` (by convention `sqrt` of a negative
radicand is 0, matching `Real.sqrt`; all radicands produced by the embedding
are nonnegative). -/
noncomputable def SqrtQ.val (s : SqrtQ) : ℝ :=
  (s.coef : ℝ) * Real.sqrt (s.rad : ℝ)

/-! ### Basic list statistics (pandas `Series` reductions) -/

/-- `Series.mean()`: arithmetic mean (0 on the empty list, a case the source
always guards). -/
def listMean (xs : List ℚ) : ℚ := xs.sum / (xs.length : ℚ)

/-- Sum of `k`-th powers of deviations from the mean. -/
def centeredSum (xs : List ℚ) (k : ℕ) : ℚ :=
  (xs.map (fun x => (x - listMean xs) ^ k)).sum

/-- `k`-th central (population) moment `m_k`. -/
def centralMoment (xs : List ℚ) (k : ℕ) : ℚ :=
  centeredSum xs k / (xs.length : ℚ)

/-- `Series.var()` with the default `ddof=1` (sample variance). -/
def sampleVar (xs : List ℚ) : ℚ :=
  centeredSum xs 2 / ((xs.length : ℚ) - 1)

/-- Sorted copy of the values (ascending). -/
def sortedVals (xs : List ℚ) : List ℚ :=
  xs.mergeSort (fun a b => a ≤ b)

/-- `Series.quantile(p)` with pandas' default linear interpolation between
order statistics. -/
def pyQuantile (xs : List ℚ) (p : ℚ) : ℚ :=
  let s := sortedVals xs
  let n := s.length
  if n = 0 then 0
  else
    let pos : ℚ := p * ((n : ℚ) - 1)
    let i : ℕ := (⌊pos⌋).toNat
    let frac : ℚ := pos - (i : ℚ)
    let a := s.getD i 0
    let b := s.getD (min (i + 1) (n - 1)) 0
    a + frac * (b - a)

/-- `Series.median()` (equals `quantile(0.5)`). -/
def pyMedian (xs : List ℚ) : ℚ := pyQuantile xs (1 / 2)

/-- Multiplicity of `v` in `xs`. -/
def countOcc (xs : List ℚ) (v : ℚ) : ℕ := (xs.filter (fun x => x = v)).length

/-- `Series.mode().iloc[0]`: the smallest among the most frequent values
(`mode()` returns the maximally frequent values in ascending order). -/
def pyMode (xs : List ℚ) : Option ℚ :=
  (xs.foldl (fun acc v =>
      let c := countOcc xs v
      match acc with
      | none => some (v, c)
      | some (bv, bc) =>
          if c > bc ∨ (c = bc ∧ v < bv) then some (v, c) else acc)
    none).map Prod.fst

/-- `Series.min()` (0 on the empty list, a case the source always guards). -/
def listMin (xs : List ℚ) : ℚ :=
  match xs with
  | [] => 0
  | x :: rest => rest.foldl min x

/-- `Series.max()`. -/
def listMax (xs : List ℚ) : ℚ :=
  match xs with
  | [] => 0
  | x :: rest => rest.foldl max x

/-- `Series.skew()` (pandas `nanskew`, scalar path): NaN (`none`) for fewer
than 3 values, `0.0` for zero variance, else the adjusted Fisher-Pearson
coefficient `sqrt(n(n-1))/(n-2) * m3/m2^(3/2)`, represented exactly as
`(m3/((n-2) m2^2)) * sqrt(n(n-1) m2)`. -/
def pandasSkew (xs : List ℚ) : Option SqrtQ :=
  let n : ℚ := (xs.length : ℚ)
  let m2 := centralMoment xs 2
  let m3 := centralMoment xs 3
  if xs.length < 3 then none
  else if m2 = 0 then some SqrtQ.zero
  else some ⟨m3 / ((n - 2) * m2 ^ 2), n * (n - 1) * m2⟩

/-- `Series.kurtosis()` (pandas `nankurt`, scalar path): NaN (`none`) for
fewer than 4 values, `0.0` when the denominator `(n-2)(n-3) m2^2` vanishes
(zero variance), else the adjusted excess kurtosis
`G2 = (n-1)/((n-2)(n-3)) * ((n+1) * m4/m2^2 - 3(n-1))`. -/
def pandasKurt (xs : List ℚ) : Option ℚ :=
  let n : ℚ := (xs.length : ℚ)
  let m2 := centralMoment xs 2
  let m4 := centralMoment xs 4
  if xs.length < 4 then none
  else if m2 = 0 then some 0
  else some ((n - 1) / ((n - 2) * (n - 3)) * ((n + 1) * (m4 / m2 ^ 2) -
    3 * (n - 1)))

/-! ### Schema inference (`AnalysisEngine._analyze_schema`) -/

/-- The column kind assigned by schema inference. -/
inductive ColKind where
  | knumeric
  | kcategorical
  | kdatetime
  | ktext
  | kboolean
deriving DecidableEq, Repr

/-- The schema dictionary: per-kind column-name lists in declaration order. -/
structure PSchema where
  numeric_columns : List String
  categorical_columns : List String
  datetime_columns : List String
  text_columns : List String
  boolean_columns : List String
deriving DecidableEq, Repr

/-- The empty schema. -/
def PSchema.empty : PSchema := ⟨[], [], [], [], []⟩

/-- Prepend a column name to its kind's list. -/
def PSchema.prepend (s : PSchema) (name : String) (k : ColKind) : PSchema :=
  match k with
  | .knumeric => { s with numeric_columns := name :: s.numeric_columns }
  | .kcategorical => { s with categorical_columns := name :: s.categorical_columns }
  | .kdatetime => { s with datetime_columns := name :: s.datetime_columns }
  | .ktext => { s with text_columns := name :: s.text_columns }
  | .kboolean => { s with boolean_columns := name :: s.boolean_columns }

/-- The `summary` counts attached to the schema. -/
structure SchemaSummary where
  numeric : ℕ
  categorical : ℕ
  datetime : ℕ
  text : ℕ
  boolean : ℕ
deriving DecidableEq, Repr

/-- `schema['summary']`. -/
def PSchema.summary (s : PSchema) : SchemaSummary :=
  ⟨s.numeric_columns.length, s.categorical_columns.length,
   s.datetime_columns.length, s.text_columns.length, s.boolean_columns.length⟩

/-- Classification of one column by `_analyze_schema`'s dtype dispatch.  For
an object column the source divides `col_data.nunique()` by
`len(col_data)`; an empty column makes this raise `ZeroDivisionError`,
embedded as `Except.error ()`. -/
def classifyColumn (c : PColumn) : Except Unit ColKind :=
  match c.dtype with
  | .datetime => .ok .kdatetime
  | .boolean => .ok .kboolean
  | .numeric => .ok .knumeric
  | .obj =>
      if c.values.length = 0 then .error ()
      else
        let uniqueRatio : ℚ := (c.nunique : ℚ) / (c.values.length : ℚ)
        if uniqueRatio < 1 / 2 ∧ c.nunique < 50 then .ok .kcategorical
        else .ok .ktext
  | .other => .ok .kcategorical

/-- Classify a list of columns in order, propagating the first error. -/
def buildSchema : List PColumn → Except Unit PSchema
  | [] => .ok PSchema.empty
  | c :: rest => do
      let k ← classifyColumn c
      let s ← buildSchema rest
      .ok (s.prepend c.name k)

/-- `AnalysisEngine._analyze_schema`: detect column kinds for the whole
dataframe. -/
def analyze_schema (df : PDataFrame) : Except Unit PSchema :=
  buildSchema df.cols

/-! ### Descriptive statistics (`DataSummary._descriptive_statistics`) -/

/-- The per-column entry for a numeric column.  `std` and `skewness` carry
exact `q * sqrt r` representations of the source's floats; the `Option` on
`skewness` and `kurtosis` models the NaN pandas yields on very short
samples. -/
structure NumericStats where
  count : ℕ
  mean : ℚ
  median : ℚ
  mode : Option ℚ
  std : SqrtQ
  var : ℚ
  min : ℚ
  max : ℚ
  q25 : ℚ
  q75 : ℚ
  iqr : ℚ
  skewness : Option SqrtQ
  kurtosis : Option ℚ
deriving DecidableEq, Repr

/-- The per-column entry for a categorical column. -/
structure CatStats where
  count : ℕ
  unique_count : ℕ
  most_frequent : Option String
  most_frequent_count : ℕ
  frequency_distribution : List (String × ℕ)
deriving DecidableEq, Repr

/-- A value of the `descriptive_stats` dictionary. -/
inductive StatsEntry where
  | numeric (e : NumericStats)
  | categorical (e : CatStats)
deriving DecidableEq, Repr

/-- The numeric statistics computed for the non-missing values `xs` of a
column (the body of the numeric branch of `_descriptive_statistics`). -/
def numericStatsOf (xs : List ℚ) : NumericStats :=
  { count := xs.length
    mean := listMean xs
    median := pyMedian xs
    mode := pyMode xs
    std := if 1 < xs.length then ⟨1, sampleVar xs⟩ else SqrtQ.zero
    var := if 1 < xs.length then sampleVar xs else 0
    min := listMin xs
    max := listMax xs
    q25 := pyQuantile xs (1 / 4)
    q75 := pyQuantile xs (3 / 4)
    iqr := pyQuantile xs (3 / 4) - pyQuantile xs (1 / 4)
    skewness := if 1 < xs.length then pandasSkew xs else some SqrtQ.zero
    kurtosis := if 1 < xs.length then pandasKurt xs else some 0 }

/-- The display string of a cell value (`str(...)` applied by the source to
dictionary keys and most-frequent values). -/
def PVal.display : PVal → String
  | .str s => s
  | .num q => toString q

/-- `Series.value_counts()`: distinct non-missing values with multiplicities,
ordered by descending count, ties in first-encountered order. -/
def valueCounts (vs : List PVal) : List (PVal × ℕ) :=
  let distinct := vs.dedup
  let counted := distinct.map (fun v => (v, (vs.filter (fun x => x = v)).length))
  counted.mergeSort (fun a b => b.2 ≤ a.2)

/-- The categorical statistics computed for the non-missing values `vs` of a
column (the body of the categorical branch of `_descriptive_statistics`). -/
def catStatsOf (vs : List PVal) : CatStats :=
  let vc := valueCounts vs
  { count := vs.length
    unique_count := vs.dedup.length
    most_frequent := (vc.head?).map (fun p => p.1.display)
    most_frequent_count := ((vc.head?).map Prod.snd).getD 0
    frequency_distribution := (vc.take 10).map (fun p => (p.1.display, p.2)) }

/-- The source's loops build dictionaries keyed by the processed column
name; `keyed f l` is the generic shape: one optional entry per name. -/
def keyed (f : String → Option β) (l : List String) : List (String × β) :=
  l.filterMap (fun name => (f name).map (fun v => (name, v)))

/-- The numeric-loop body of `_descriptive_statistics` for one column name:
skip names absent from the frame and columns with no non-missing value. -/
def numericEntry (df : PDataFrame) (name : String) : Option NumericStats :=
  match df.findCol name with
  | none => none
  | some c =>
      if c.numValues.length = 0 then none else some (numericStatsOf c.numValues)

/-- The categorical-loop body of `_descriptive_statistics` for one column
name. -/
def categoricalEntry (df : PDataFrame) (name : String) : Option CatStats :=
  match df.findCol name with
  | none => none
  | some c =>
      if c.nonNull.length = 0 then none else some (catStatsOf c.nonNull)

/-- `DataSummary._descriptive_statistics`: numeric entries (for schema
numeric columns present in the frame with at least one non-missing value)
followed by categorical entries. -/
def descriptive_statistics (df : PDataFrame) (schema : PSchema) :
    List (String × StatsEntry) :=
  keyed (fun n => (numericEntry df n).map StatsEntry.numeric)
    schema.numeric_columns ++
  keyed (fun n => (categoricalEntry df n).map StatsEntry.categorical)
    schema.categorical_columns

/-! ### Correlation analysis (`DataSummary._correlation_analysis`) -/

/-- The rows at which both columns have a numeric value (pandas `corr`
pairwise-complete observation handling). -/
def pairedVals (ca cb : PColumn) : List (ℚ × ℚ) :=
  (ca.values.zip cb.values).filterMap (fun p =>
    match p with
    | (some (.num x), some (.num y)) => some (x, y)
    | _ => none)

/-- Pearson coefficient of two paired samples, exactly:
`Sxy / sqrt (Sxx * Syy)` represented as `(Sxy/(Sxx*Syy)) * sqrt (Sxx*Syy)`;
`none` models the NaN pandas yields when either variance is zero (constant or
empty column). -/
def pearsonOf (ps : List (ℚ × ℚ)) : Option SqrtQ :=
  let xs := ps.map Prod.fst
  let ys := ps.map Prod.snd
  let mx := listMean xs
  let my := listMean ys
  let sxy := (ps.map (fun p => (p.1 - mx) * (p.2 - my))).sum
  let sxx := centeredSum xs 2
  let syy := centeredSum ys 2
  if sxx * syy = 0 then none else some ⟨sxy / (sxx * syy), sxx * syy⟩

/-- `pearson_corr.loc[a, b]` of `numeric_df.corr(method='pearson')`. -/
def pearsonEntry (df : PDataFrame) (a b : String) : Option SqrtQ :=
  match df.findCol a, df.findCol b with
  | some ca, some cb => pearsonOf (pairedVals ca cb)
  | _, _ => none

/-- Average fractional ranks (1-based, ties averaged), the `scipy`/pandas rank
transform underlying Spearman correlation. -/
def avgRanks (xs : List ℚ) : List ℚ :=
  xs.map (fun x =>
    ((xs.filter (fun y => y < x)).length : ℚ) +
      (((xs.filter (fun y => y = x)).length : ℚ) + 1) / 2)

/-- `spearman_corr.loc[a, b]`: Pearson coefficient of the rank transforms of
the pairwise-complete observations. -/
def spearmanEntry (df : PDataFrame) (a b : String) : Option SqrtQ :=
  match df.findCol a, df.findCol b with
  | some ca, some cb =>
      let ps := pairedVals ca cb
      pearsonOf ((avgRanks (ps.map Prod.fst)).zip (avgRanks (ps.map Prod.snd)))
  | _, _ => none

/-- A full correlation matrix as a nested column-name dictionary
(`DataFrame.corr(...).to_dict()`). -/
def corrMatrix (entry : String → String → Option SqrtQ) (nc : List String) :
    List (String × List (String × Option SqrtQ)) :=
  nc.map (fun a => (a, nc.map (fun b => (b, entry a b))))

/-- One record of the `strong_correlations` list. -/
structure StrongCorr where
  column1 : String
  column2 : String
  correlation : SqrtQ
  strength : String
deriving DecidableEq, Repr

/-- All ordered pairs `(l[i], l[j])` with `i < j`, in lexicographic index
order (the source's double `enumerate` loop with `if i < j`). -/
def listPairs : List α → List (α × α)
  | [] => []
  | x :: rest => rest.map (fun y => (x, y)) ++ listPairs rest

/-- The strong-correlation record for one ordered pair, if its Pearson
coefficient exists (is not NaN) and `|r| > 0.7`. -/
def strongCorrOf (df : PDataFrame) (p : String × String) : Option StrongCorr :=
  match pearsonEntry df p.1 p.2 with
  | none => none
  | some r =>
      if r.absGtQ (7 / 10) then
        some ⟨p.1, p.2, r, if r.absGtQ (8 / 10) then "strong" else "moderate"⟩
      else none

/-- The `strong_correlations` list extracted from the Pearson matrix. -/
def strong_correlations (df : PDataFrame) (nc : List String) : List StrongCorr :=
  (listPairs nc).filterMap (strongCorrOf df)

/-- The `correlations` sub-dictionary of the summary. -/
structure Correlations where
  pearson : List (String × List (String × Option SqrtQ))
  spearman : List (String × List (String × Option SqrtQ))
  strong : List StrongCorr
deriving DecidableEq, Repr

/-- `DataSummary._correlation_analysis`: `none` models the empty dictionary
returned when fewer than 2 numeric columns exist. -/
def correlation_analysis (df : PDataFrame) (schema : PSchema) :
    Option Correlations :=
  if 1 < schema.numeric_columns.length then
    some ⟨corrMatrix (pearsonEntry df) schema.numeric_columns,
          corrMatrix (spearmanEntry df) schema.numeric_columns,
          strong_correlations df schema.numeric_columns⟩
  else none

/-! ### Distribution analysis (`DataSummary._distribution_analysis`) -/

/-- `DataSummary._calculate_optimal_bins`: Sturges' rule
`ceil(log2 n + 1)` clamped to `[5, 50]` (`Nat.clog 2 n = ceil (log2 n)`). -/
def calculate_optimal_bins (n : ℕ) : ℕ :=
  max 5 (min (Nat.clog 2 n + 1) 50)

/-- `DataSummary._identify_distribution_type`: the fixed-precedence decision
table over the sample skewness (a `q * sqrt r` value) and excess kurtosis. -/
def identify_distribution_type (skewness : SqrtQ) (kurtosis : ℚ) : String :=
  if skewness.absLtQ (1 / 2) ∧ |kurtosis| < 1 / 2 then "normal"
  else if skewness.gtQ 1 then "right_skewed"
  else if skewness.ltQ (-1) then "left_skewed"
  else if kurtosis > 3 then "heavy_tailed"
  else if kurtosis < -1 then "light_tailed"
  else "unknown"

/-- The `normality_test` record of a distribution entry. -/
structure NormalityTest where
  shapiro_stat : ℚ
  shapiro_p_value : ℚ
  is_normal : Bool
deriving DecidableEq, Repr

/-- One entry of the `distributions` dictionary. -/
structure DistEntry where
  normality : NormalityTest
  histogram_bins : ℕ
  distribution_type : String
deriving DecidableEq, Repr

/-- `DataSummary._distribution_analysis`: for each numeric column with more
than 10 non-missing values, a Shapiro-Wilk normality test on a bounded
sample, Sturges bins and the shape label.  `shapiro` abstracts the external
`scipy.stats.shapiro` as a deterministic function of the sorted sample
(`Series.sample` permutes the values when at most 5000 are present, and the
test statistic is permutation invariant). -/
def distEntry (shapiro : List ℚ → ℚ × ℚ) (df : PDataFrame) (name : String) :
    Option DistEntry :=
  match df.findCol name with
  | none => none
  | some c =>
      let xs := c.numValues
      if 10 < xs.length then
        let sp := shapiro (sortedVals xs)
        some
          { normality :=
              { shapiro_stat := sp.1
                shapiro_p_value := sp.2
                is_normal := sp.2 > 1 / 20 }
            histogram_bins := calculate_optimal_bins xs.length
            distribution_type :=
              identify_distribution_type ((pandasSkew xs).getD SqrtQ.zero)
                ((pandasKurt xs).getD 0) }
      else none

/-- `DataSummary._distribution_analysis` over the schema's numeric columns. -/
def distribution_analysis (shapiro : List ℚ → ℚ × ℚ) (df : PDataFrame)
    (schema : PSchema) : List (String × DistEntry) :=
  keyed (distEntry shapiro df) schema.numeric_columns

/-! ### Missing-data analysis (`DataSummary._missing_data_analysis`) -/

/-- One per-column entry of the `missing_data` dictionary. -/
structure MissEntry where
  missing_count : ℕ
  missing_percentage : ℚ
  has_missing : Bool
deriving DecidableEq, Repr

/-- The dataset-level `summary` entry of the `missing_data` dictionary. -/
structure MissSummary where
  total_missing_values : ℕ
  total_cells : ℕ
  overall_missing_percentage : ℚ
  columns_with_missing : ℕ
deriving DecidableEq, Repr

/-- Number of missing cells of one column. -/
def PColumn.missingCount (c : PColumn) : ℕ :=
  (c.values.filter (fun v => v.isNone)).length

/-- The whole `missing_data` analysis result. -/
structure MissingData where
  perColumn : List (String × MissEntry)
  summary : MissSummary
deriving DecidableEq, Repr

/-- `DataSummary._missing_data_analysis`. -/
def missing_data_analysis (df : PDataFrame) : MissingData :=
  let totalMissing := (df.cols.map PColumn.missingCount).sum
  let totalCells := df.nRows * df.nCols
  { perColumn := df.cols.map (fun c =>
      (c.name,
        { missing_count := c.missingCount
          missing_percentage := (c.missingCount : ℚ) / (df.nRows : ℚ) * 100
          has_missing := 0 < c.missingCount }))
    summary :=
      { total_missing_values := totalMissing
        total_cells := totalCells
        overall_missing_percentage := (totalMissing : ℚ) / (totalCells : ℚ) * 100
        columns_with_missing :=
          (df.cols.filter (fun c => 0 < c.missingCount)).length } }

/-! ### Outlier analysis (`DataSummary._outlier_analysis`) -/

/-- One entry of the `outliers` dictionary. -/
structure OutlierEntry where
  outlier_count : ℕ
  outlier_percentage : ℚ
  lower_bound : ℚ
  upper_bound : ℚ
  has_outliers : Bool
deriving DecidableEq, Repr

/-- The IQR outlier profile of the non-missing values `xs` of a column (the
loop body of `_outlier_analysis`). -/
def outlierStatsOf (xs : List ℚ) : OutlierEntry :=
  let q1 := pyQuantile xs (1 / 4)
  let q3 := pyQuantile xs (3 / 4)
  let iqr := q3 - q1
  let lower := q1 - 3 / 2 * iqr
  let upper := q3 + 3 / 2 * iqr
  let cnt := (xs.filter (fun v => v < lower ∨ v > upper)).length
  { outlier_count := cnt
    outlier_percentage := (cnt : ℚ) / (xs.length : ℚ) * 100
    lower_bound := lower
    upper_bound := upper
    has_outliers := 0 < cnt }

/-- The loop body of `_outlier_analysis` for one column name. -/
def outlierEntry (df : PDataFrame) (name : String) : Option OutlierEntry :=
  match df.findCol name with
  | none => none
  | some c =>
      if c.numValues.length = 0 then none else some (outlierStatsOf c.numValues)

/-- `DataSummary._outlier_analysis`. -/
def outlier_analysis (df : PDataFrame) (schema : PSchema) :
    List (String × OutlierEntry) :=
  keyed (outlierEntry df) schema.numeric_columns

/-! ### Summary aggregation (`DataSummary.generate_summary`) -/

/-- The `summary` dictionary produced by `DataSummary.generate_summary`. -/
structure Summary where
  descriptive_stats : List (String × StatsEntry)
  correlations : Option Correlations
  distributions : List (String × DistEntry)
  missing_data : Option MissingData
  outliers : List (String × OutlierEntry)
deriving DecidableEq, Repr

/-- The all-empty summary returned for a missing or empty dataframe. -/
def Summary.emptySummary : Summary := ⟨[], none, [], none, []⟩

/-- `DataSummary.generate_summary`. -/
def generate_summary (shapiro : List ℚ → ℚ × ℚ) (df : PDataFrame)
    (schema : PSchema) : Summary :=
  if df.isEmptyDF then Summary.emptySummary
  else
    { descriptive_stats := descriptive_statistics df schema
      correlations := correlation_analysis df schema
      distributions := distribution_analysis shapiro df schema
      missing_data := some (missing_data_analysis df)
      outliers := outlier_analysis df schema }

/-! ### Python number formatting -/

/-- Zero-pad a number to `d` digits. -/
def padDigits (d : ℕ) (m : ℕ) : String :=
  let s := toString m
  String.mk (List.replicate (d - s.length) '0') ++ s

/-- `round (sqrt t)` for `0 ≤ t`, rounding half up
(`Nat.sqrt ⌊t⌋ = ⌊sqrt t⌋` for rationals). -/
def sqrtRoundNat (t : ℚ) : ℕ :=
  let a := Nat.sqrt (⌊t⌋).toNat
  if 4 * t < ((2 * a + 1 : ℕ) : ℚ) ^ 2 then a else a + 1

/-- Python `format(value, '.df')` applied to the represented value
`coef * sqrt rad`: fixed-point decimal with `d` fractional digits. -/
def SqrtQ.toFixed (s : SqrtQ) (d : ℕ) : String :=
  let scale : ℚ := (10 : ℚ) ^ d
  let q := |s.coef| * scale
  let n := sqrtRoundNat (q ^ 2 * s.rad)
  let sign := if s.sgn = -1 then "-" else ""
  sign ++ toString (n / 10 ^ d) ++ "." ++ padDigits d (n % 10 ^ d)

/-- Python `format(q, '.df')` for a rational. -/
def fixedQ (q : ℚ) (d : ℕ) : String := SqrtQ.toFixed ⟨q, 1⟩ d

/-- Insert thousands separators into a reversed digit list
(Python's `{:,}` format). -/
def commaRev : List Char → List Char
  | a :: b :: c :: d :: rest => a :: b :: c :: ',' :: commaRev (d :: rest)
  | l => l

/-- Python `f"{n:,}"` for a natural number. -/
def fmtComma (n : ℕ) : String :=
  String.mk (commaRev (toString n).data.reverse).reverse

/-! ### Insight synthesis (`InsightsGenerator`) -/

/-- The first overview insight:
`f"📊 Dataset contains {total_rows:,} records across {total_cols} variables"`. -/
def overviewString (rows cols : ℕ) : String :=
  "📊 Dataset contains " ++ fmtComma rows ++ " records across " ++
    toString cols ++ " variables"

/-- `InsightsGenerator._dataset_overview_insights`. -/
def dataset_overview_insights (df : PDataFrame) (schema : PSchema) :
    List String :=
  let ts := schema.summary
  [overviewString df.nRows df.nCols] ++
  (if 0 < ts.numeric then
    ["🔢 " ++ toString ts.numeric ++ " numeric variables detected for quantitative analysis"]
   else []) ++
  (if 0 < ts.categorical then
    ["🏷️ " ++ toString ts.categorical ++ " categorical variables identified for grouping analysis"]
   else []) ++
  (if 0 < ts.datetime then
    ["📅 " ++ toString ts.datetime ++ " datetime variables found for temporal analysis"]
   else []) ++
  ["💾 Dataset size: " ++ fixedQ df.memoryMB 2 ++ " MB in memory"]

/-- The low-variability insight string for a column with coefficient of
variation `cv`. -/
def lowVariabilityString (name : String) (cv : SqrtQ) : String :=
  "📏 " ++ name ++ ": Low variability, values are consistent (CV = " ++
    cv.toFixed 2 ++ ")"

/-- The per-numeric-column block of `_statistical_insights`: a central
tendency insight, then (conditionally) a variability insight driven by the
coefficient of variation, which defaults to 0 when the mean is 0. -/
def numericColInsights (name : String) (e : NumericStats) : List String :=
  let meanv := e.mean
  let medv := e.median
  let tendency :=
    if |meanv - medv| / max |meanv| (max |medv| 1) > 1 / 10 then
      if meanv > medv then
        ["📈 " ++ name ++ ": Right-skewed distribution (mean " ++
          fixedQ meanv 2 ++ " > median " ++ fixedQ medv 2 ++ ")"]
      else
        ["📉 " ++ name ++ ": Left-skewed distribution (mean " ++
          fixedQ meanv 2 ++ " < median " ++ fixedQ medv 2 ++ ")"]
    else
      ["⚖️ " ++ name ++ ": Symmetric distribution (mean ≈ median ≈ " ++
        fixedQ meanv 2 ++ ")"]
  let cv := if meanv ≠ 0 then e.std.divQ |meanv| else SqrtQ.zero
  let variability :=
    if cv.gtQ 1 then
      ["📊 " ++ name ++ ": High variability detected (CV = " ++ cv.toFixed 2 ++ ")"]
    else if cv.ltQ (1 / 10) then [lowVariabilityString name cv]
    else []
  tendency ++ variability

/-- The per-categorical-column block of `_statistical_insights`. -/
def catColInsights (name : String) (e : CatStats) : List String :=
  let diversity := (e.unique_count : ℚ) / (e.count : ℚ)
  let dominance := (e.most_frequent_count : ℚ) / (e.count : ℚ)
  if diversity > 4 / 5 then
    ["🌈 " ++ name ++ ": High diversity with " ++ toString e.unique_count ++
      " unique categories"]
  else if dominance > 7 / 10 then
    ["🎯 " ++ name ++ ": Dominated by '" ++ e.most_frequent.getD "None" ++
      "' (" ++ fixedQ (dominance * 100) 1 ++ "% of records)"]
  else
    ["🏷️ " ++ name ++ ": Balanced distribution across " ++
      toString e.unique_count ++ " categories"]

/-- `InsightsGenerator._statistical_insights`: the first 5 numeric columns
with a (numeric) descriptive-statistics entry, then the first 3 categorical
columns with a (categorical) entry. -/
def statistical_insights (schema : PSchema) (stats : Summary) : List String :=
  let ds := stats.descriptive_stats
  ((schema.numeric_columns.take 5).flatMap (fun name =>
    match ds.lookup name with
    | some (.numeric e) => numericColInsights name e
    | _ => [])) ++
  ((schema.categorical_columns.take 3).flatMap (fun name =>
    match ds.lookup name with
    | some (.categorical e) => catColInsights name e
    | _ => []))

/-- `InsightsGenerator._data_quality_insights`: the quality band by overall
missing percentage, the columns-with-missing count, and the up-to-3 list of
columns missing more than 20%. -/
def data_quality_insights (stats : Summary) : List String :=
  let overall :=
    ((stats.missing_data.map
      (fun m => m.summary.overall_missing_percentage)).getD 0)
  let cwm :=
    ((stats.missing_data.map (fun m => m.summary.columns_with_missing)).getD 0)
  let quality :=
    if overall = 0 then ["✅ Excellent data quality: No missing values detected"]
    else if overall < 5 then
      ["✅ Good data quality: Only " ++ fixedQ overall 1 ++ "% missing values"]
    else if overall < 15 then
      ["⚠️ Moderate data quality: " ++ fixedQ overall 1 ++
        "% missing values need attention"]
    else
      ["🚨 Poor data quality: " ++ fixedQ overall 1 ++
        "% missing values require significant cleaning"]
  let cw :=
    if 0 < cwm then ["🔍 " ++ toString cwm ++ " columns contain missing values"]
    else []
  let highCols :=
    (((stats.missing_data.map (fun m => m.perColumn)).getD []).filter
      (fun p => p.2.missing_percentage > 20)).map Prod.fst
  let high :=
    if highCols.isEmpty then []
    else ["⚠️ High missing rates in: " ++
      String.intercalate ", " (highCols.take 3)]
  quality ++ cw ++ high

/-- The single insight emitted when no strong correlation exists. -/
def noStrongCorrString : String :=
  "🔍 No strong correlations detected between numeric variables"

/-- `InsightsGenerator._correlation_insights`. -/
def correlation_insights (stats : Summary) : List String :=
  let strong := (stats.correlations.map (fun c => c.strong)).getD []
  if strong.isEmpty then [noStrongCorrString]
  else
    (strong.take 3).map (fun c =>
      if c.correlation.gtQ 0 then
        "📈 Strong positive correlation between " ++ c.column1 ++ " and " ++
          c.column2 ++ " (r = " ++ c.correlation.toFixed 3 ++ ")"
      else
        "📉 Strong negative correlation between " ++ c.column1 ++ " and " ++
          c.column2 ++ " (r = " ++ c.correlation.toFixed 3 ++ ")")

/-- `InsightsGenerator._distribution_insights`. -/
def distribution_insights (stats : Summary) : List String :=
  let normal :=
    (stats.distributions.filter (fun p => p.2.normality.is_normal)).map Prod.fst
  let skewed :=
    (stats.distributions.filter (fun p => !p.2.normality.is_normal)).map Prod.fst
  (if normal.isEmpty then []
   else ["📊 Normal distributions detected in: " ++
     String.intercalate ", " (normal.take 3)]) ++
  (if skewed.isEmpty then []
   else ["📐 Non-normal distributions in: " ++
     String.intercalate ", " (skewed.take 3) ++ " - consider transformations"])

/-- `InsightsGenerator._outlier_insights`. -/
def outlier_insights (stats : Summary) : List String :=
  let high := stats.outliers.filter (fun p => p.2.outlier_percentage > 5)
  let clean :=
    (stats.outliers.filter (fun p =>
      ¬ p.2.outlier_percentage > 5 ∧ p.2.outlier_percentage = 0)).map Prod.fst
  (if clean.isEmpty then []
   else ["✅ No outliers detected in: " ++
     String.intercalate ", " (clean.take 3)]) ++
  ((high.take 3).map (fun p =>
    "🎯 " ++ p.1 ++ ": " ++ fixedQ p.2.outlier_percentage 1 ++
      "% outliers detected - investigate extreme values"))

/-- `InsightsGenerator.generate_insights`: the fixed category order
overview, statistical, quality, correlation, distribution, outlier. -/
def generate_insights (df : PDataFrame) (schema : PSchema) (stats : Summary) :
    List String :=
  dataset_overview_insights df schema ++
  statistical_insights schema stats ++
  data_quality_insights stats ++
  correlation_insights stats ++
  distribution_insights stats ++
  outlier_insights stats

/-! ### Pipeline orchestration (`AnalysisEngine.analyze_dataset`) -/

/-- Python `round(x, 2)` (half to even). -/
def roundHalfEven (x : ℚ) : ℤ :=
  let f := ⌊x⌋
  let r := x - (f : ℚ)
  if r < 1 / 2 then f
  else if r > 1 / 2 then f + 1
  else if f % 2 = 0 then f else f + 1

/-- `round(df.memory_usage(deep=True).sum() / 1024 / 1024, 2)`. -/
def roundTo2 (q : ℚ) : ℚ := ((roundHalfEven (q * 100) : ℤ) : ℚ) / 100

/-- The analysis-result record compiled by `analyze_dataset` (the
statistical core: loading/cleaning, chart generation and the AI explanation
layer are external collaborators and contribute no statistics). -/
structure AnalysisResult where
  filename : String
  timestamp : String
  rows : ℕ
  columns : ℕ
  size_mb : ℚ
  schema : PSchema
  statistics : Summary
  insights : List String
deriving DecidableEq, Repr

/-- `AnalysisEngine.analyze_dataset` on an already loaded and cleaned
dataframe: reject empty input (`ValueError`), infer the schema (a
`ZeroDivisionError` there propagates), compute the summary and the insights,
and stamp the result with the wall-clock time `now`
(`datetime.now().isoformat()`). -/
def analyze_dataset (shapiro : List ℚ → ℚ × ℚ) (df : PDataFrame)
    (filename now : String) : Except String AnalysisResult :=
  if df.isEmptyDF then .error "Failed to load dataset or dataset is empty"
  else
    match analyze_schema df with
    | .error _ => .error "ZeroDivisionError"
    | .ok schema =>
        let stats := generate_summary shapiro df schema
        let insights := generate_insights df schema stats
        .ok { filename := filename
              timestamp := now
              rows := df.nRows
              columns := df.nCols
              size_mb := roundTo2 df.memoryMB
              schema := schema
              statistics := stats
              insights := insights }

/-! ### Semantics of the `SqrtQ` comparisons -/

theorem SqrtQ.abs_val_eq (s : SqrtQ) :
    |s.val| = Real.sqrt ((s.coef ^ 2 * s.rad : ℚ) : ℝ) := by
  unfold SqrtQ.val
  rw [abs_mul, abs_of_nonneg (Real.sqrt_nonneg _)]
  push_cast
  rw [Real.sqrt_mul (by positivity : (0 : ℝ) ≤ ((s.coef : ℝ)) ^ 2),
    Real.sqrt_sq_eq_abs]

theorem SqrtQ.val_zero_of_sgn_zero (s : SqrtQ) (h : s.sgn = 0) : s.val = 0 := by
  unfold SqrtQ.sgn at h
  unfold SqrtQ.val
  split at h
  · rcases ‹s.rad = 0 ∨ s.coef = 0› with h0 | h0 <;> simp [h0]
  · split at h <;> simp_all

theorem SqrtQ.val_pos_of_sgn_one (s : SqrtQ) (hr : 0 ≤ s.rad) (h : s.sgn = 1) :
    0 < s.val := by
  unfold SqrtQ.sgn at h
  unfold SqrtQ.val
  split at h
  · simp_all
  · rename_i hne
    push_neg at hne
    have hrpos : (0 : ℝ) < (s.rad : ℝ) := by
      exact_mod_cast lt_of_le_of_ne hr (Ne.symm hne.1)
    split at h
    · exact mul_pos (by exact_mod_cast ‹0 < s.coef›) (Real.sqrt_pos.mpr hrpos)
    · simp_all

theorem SqrtQ.val_neg_of_sgn_negone (s : SqrtQ) (hr : 0 ≤ s.rad)
    (h : s.sgn = -1) : s.val < 0 := by
  unfold SqrtQ.sgn at h
  unfold SqrtQ.val
  split at h
  · simp_all
  · rename_i hne
    push_neg at hne
    have hrpos : (0 : ℝ) < (s.rad : ℝ) := by
      exact_mod_cast lt_of_le_of_ne hr (Ne.symm hne.1)
    split at h
    · simp_all
    · have hc : s.coef < 0 := lt_of_le_of_ne (not_lt.mp ‹¬ 0 < s.coef›) hne.2
      exact mul_neg_of_neg_of_pos (by exact_mod_cast hc) (Real.sqrt_pos.mpr hrpos)

theorem SqrtQ.sq_val (s : SqrtQ) (hr : 0 ≤ s.rad) :
    s.val ^ 2 = ((s.coef ^ 2 * s.rad : ℚ) : ℝ) := by
  rw [← sq_abs, SqrtQ.abs_val_eq, Real.sq_sqrt (by exact_mod_cast by positivity)]

theorem SqrtQ.absLtQ_iff (s : SqrtQ) (t : ℚ) (hr : 0 ≤ s.rad) :
    s.absLtQ t = true ↔ |s.val| < (t : ℝ) := by
  unfold SqrtQ.absLtQ
  rw [SqrtQ.abs_val_eq]
  constructor
  · intro h
    simp only [decide_eq_true_eq] at h
    have ht : (0 : ℝ) < (t : ℝ) := by exact_mod_cast h.1
    rw [Real.sqrt_lt' ht]
    exact_mod_cast h.2
  · intro h
    have ht : (0 : ℝ) < (t : ℝ) :=
      lt_of_le_of_lt (Real.sqrt_nonneg _) h
    rw [Real.sqrt_lt' ht] at h
    simp only [decide_eq_true_eq]
    exact ⟨by exact_mod_cast ht, by exact_mod_cast h⟩

theorem SqrtQ.absGtQ_iff (s : SqrtQ) (t : ℚ) (hr : 0 ≤ s.rad) :
    s.absGtQ t = true ↔ (t : ℝ) < |s.val| := by
  unfold SqrtQ.absGtQ
  rw [SqrtQ.abs_val_eq]
  rcases lt_or_le t 0 with ht | ht
  · constructor
    · intro _
      exact lt_of_lt_of_le (by exact_mod_cast ht) (Real.sqrt_nonneg _)
    · intro _
      simp [ht]
  · have ht' : (0 : ℝ) ≤ (t : ℝ) := by exact_mod_cast ht
    rw [Real.lt_sqrt ht']
    constructor
    · intro h
      simp only [decide_eq_true_eq] at h
      rcases h with h | h
      · exact absurd h (not_lt.mpr ht)
      · exact_mod_cast h
    · intro h
      simp only [decide_eq_true_eq]
      exact Or.inr (by exact_mod_cast h)

theorem SqrtQ.sq_abs_val (s : SqrtQ) (hr : 0 ≤ s.rad) :
    |s.val| ^ 2 = ((s.coef ^ 2 * s.rad : ℚ) : ℝ) := by
  rw [sq_abs]; exact s.sq_val hr

theorem SqrtQ.abs_lt_abs_iff (s : SqrtQ) (t : ℚ) (hr : 0 ≤ s.rad) :
    (|s.val| < |(t : ℝ)| ↔ s.coef ^ 2 * s.rad < t ^ 2) ∧
      (|(t : ℝ)| < |s.val| ↔ t ^ 2 < s.coef ^ 2 * s.rad) := by
  have h1 : s.val ^ 2 = ((s.coef ^ 2 * s.rad : ℚ) : ℝ) := s.sq_val hr
  have h2 : ((t : ℝ)) ^ 2 = ((t ^ 2 : ℚ) : ℝ) := by push_cast; ring
  constructor
  · rw [← sq_lt_sq, h1, h2]
    exact ⟨fun h => by exact_mod_cast h, fun h => by exact_mod_cast h⟩
  · rw [← sq_lt_sq, h1, h2]
    exact ⟨fun h => by exact_mod_cast h, fun h => by exact_mod_cast h⟩

theorem SqrtQ.ltQ_iff (s : SqrtQ) (t : ℚ) (hr : 0 ≤ s.rad) :
    s.ltQ t = true ↔ s.val < (t : ℝ) := by
  unfold SqrtQ.ltQ
  split
  · rename_i h0
    rw [SqrtQ.val_zero_of_sgn_zero s h0]
    simp only [decide_eq_true_eq]
    exact ⟨fun h => by exact_mod_cast h, fun h => by exact_mod_cast h⟩
  · split
    · rename_i hne h1
      have hpos := SqrtQ.val_pos_of_sgn_one s hr h1
      simp only [Bool.and_eq_true, decide_eq_true_eq]
      constructor
      · intro ⟨htp, hsq⟩
        have htp' : (0 : ℝ) < (t : ℝ) := by exact_mod_cast htp
        have := ((s.abs_lt_abs_iff t hr).1).mpr hsq
        rw [abs_of_pos hpos, abs_of_pos htp'] at this
        exact this
      · intro h
        have htp' : (0 : ℝ) < (t : ℝ) := lt_trans hpos h
        refine ⟨by exact_mod_cast htp', ((s.abs_lt_abs_iff t hr).1).mp ?_⟩
        rwa [abs_of_pos hpos, abs_of_pos htp']
    · rename_i hne hne1
      have hsgn : s.sgn = -1 := by
        unfold SqrtQ.sgn at hne hne1 ⊢
        split at hne
        · simp_all
        · split at hne1 <;> simp_all
      have hneg := SqrtQ.val_neg_of_sgn_negone s hr hsgn
      simp only [Bool.or_eq_true, Bool.and_eq_true, decide_eq_true_eq]
      rcases lt_or_le 0 t with htp | htp
      · have htp' : (0 : ℝ) < (t : ℝ) := by exact_mod_cast htp
        constructor
        · intro _; exact lt_trans hneg htp'
        · intro _; exact Or.inl htp
      · have htp' : (t : ℝ) ≤ 0 := by exact_mod_cast htp
        have hiff : s.val < (t : ℝ) ↔ t ^ 2 < s.coef ^ 2 * s.rad := by
          rw [← (s.abs_lt_abs_iff t hr).2, abs_of_neg hneg,
            abs_of_nonpos htp']
          constructor
          · intro h; linarith
          · intro h; linarith
        constructor
        · intro h
          rcases h with h | ⟨_, h⟩
          · exact absurd h (not_lt.mpr htp)
          · exact hiff.mpr h
        · intro h
          exact Or.inr ⟨htp, hiff.mp h⟩

theorem SqrtQ.gtQ_iff (s : SqrtQ) (t : ℚ) (hr : 0 ≤ s.rad) :
    s.gtQ t = true ↔ (t : ℝ) < s.val := by
  unfold SqrtQ.gtQ
  split
  · rename_i h0
    rw [SqrtQ.val_zero_of_sgn_zero s h0]
    simp only [decide_eq_true_eq]
    exact ⟨fun h => by exact_mod_cast h, fun h => by exact_mod_cast h⟩
  · split
    · rename_i hne h1
      have hpos := SqrtQ.val_pos_of_sgn_one s hr h1
      simp only [Bool.or_eq_true, Bool.and_eq_true, decide_eq_true_eq]
      rcases lt_or_le t 0 with htn | htn
      · have htn' : (t : ℝ) < 0 := by exact_mod_cast htn
        constructor
        · intro _; exact lt_trans htn' hpos
        · intro _; exact Or.inl htn
      · have htn' : (0 : ℝ) ≤ (t : ℝ) := by exact_mod_cast htn
        have hiff : (t : ℝ) < s.val ↔ t ^ 2 < s.coef ^ 2 * s.rad := by
          rw [← (s.abs_lt_abs_iff t hr).2, abs_of_pos hpos,
            abs_of_nonneg htn']
        constructor
        · intro h
          rcases h with h | ⟨_, h⟩
          · exact absurd h (not_lt.mpr htn)
          · exact hiff.mpr h
        · intro h
          exact Or.inr ⟨htn, hiff.mp h⟩
    · rename_i hne hne1
      have hsgn : s.sgn = -1 := by
        unfold SqrtQ.sgn at hne hne1 ⊢
        split at hne
        · simp_all
        · split at hne1 <;> simp_all
      have hneg := SqrtQ.val_neg_of_sgn_negone s hr hsgn
      simp only [Bool.and_eq_true, decide_eq_true_eq]
      constructor
      · intro ⟨htn, hsq⟩
        have htn' : (t : ℝ) < 0 := by exact_mod_cast htn
        have := ((s.abs_lt_abs_iff t hr).1).mpr hsq
        rw [abs_of_neg hneg, abs_of_neg htn'] at this
        linarith
      · intro h
        have htn' : (t : ℝ) < 0 := lt_trans h hneg
        refine ⟨by exact_mod_cast htn', ((s.abs_lt_abs_iff t hr).1).mp ?_⟩
        rw [abs_of_neg hneg, abs_of_neg htn']
        linarith

/-! ### Dictionary-lookup infrastructure -/

theorem lookup_keyed (f : String → Option β) (l : List String) (k : String) :
    (keyed f l).lookup k = if k ∈ l then f k else none := by
  induction l with
  | nil => simp [keyed]
  | cons x rest ih =>
      simp only [keyed, List.filterMap_cons] at ih ⊢
      by_cases hkx : k = x
      · subst hkx
        cases hfk : f k with
        | none =>
            simp only [hfk, Option.map_none']
            rw [ih]
            by_cases hk : k ∈ rest <;> simp [hk, hfk, List.mem_cons]
        | some v =>
            simp only [hfk, Option.map_some', List.lookup_cons, beq_self_eq_true]
            simp [List.mem_cons, hfk]
      · cases hfx : f x with
        | none =>
            simp only [hfx, Option.map_none']
            rw [ih]
            simp [List.mem_cons, hkx]
        | some v =>
            simp only [hfx, Option.map_some', List.lookup_cons]
            rw [show (k == x) = false from beq_eq_false_iff_ne.mpr hkx]
            rw [ih]
            simp [List.mem_cons, hkx]

theorem lookup_append_eq (l1 l2 : List (String × β)) (k : String) :
    (l1 ++ l2).lookup k =
      match l1.lookup k with
      | some v => some v
      | none => l2.lookup k := by
  induction l1 with
  | nil => simp
  | cons p rest ih =>
      obtain ⟨a, b⟩ := p
      by_cases hk : k = a
      · subst hk
        simp [List.lookup_cons]
      · simp only [List.cons_append, List.lookup_cons]
        rw [show (k == a) = false from beq_eq_false_iff_ne.mpr hk]
        exact ih

/-! ### `listPairs` infrastructure -/

theorem mem_listPairs (l : List α) (a b : α) :
    (a, b) ∈ listPairs l ↔
      ∃ i j : ℕ, i < j ∧ l[i]? = some a ∧ l[j]? = some b := by
  induction l with
  | nil => simp [listPairs]
  | cons x rest ih =>
      simp only [listPairs, List.mem_append, List.mem_map, Prod.mk.injEq]
      constructor
      · intro h
        rcases h with ⟨y, hy, hxa, hyb⟩ | h
        · subst hxa; subst hyb
          obtain ⟨j, hjlt, hj⟩ := List.getElem_of_mem hy
          refine ⟨0, j + 1, Nat.succ_pos j, by simp, ?_⟩
          simp only [List.getElem?_cons_succ]
          exact (List.getElem?_eq_getElem hjlt).trans (by rw [hj])
        · obtain ⟨i, j, hij, ha, hb⟩ := ih.mp h
          exact ⟨i + 1, j + 1, Nat.succ_lt_succ hij, by simpa using ha,
            by simpa using hb⟩
      · rintro ⟨i, j, hij, ha, hb⟩
        match i, j with
        | 0, 0 => exact absurd hij (lt_irrefl 0)
        | 0, j + 1 =>
            left
            simp only [List.getElem?_cons_zero, Option.some.injEq] at ha
            simp only [List.getElem?_cons_succ] at hb
            exact ⟨b, List.getElem?_mem hb, ha, rfl⟩
        | i + 1, 0 => exact absurd hij (by omega)
        | i + 1, j + 1 =>
            right
            simp only [List.getElem?_cons_succ] at ha hb
            exact ih.mpr ⟨i, j, by omega, ha, hb⟩

theorem listPairs_mem_components (l : List α) (p : α × α)
    (hp : p ∈ listPairs l) : p.1 ∈ l ∧ p.2 ∈ l := by
  induction l with
  | nil => simp [listPairs] at hp
  | cons x rest ih =>
      simp only [listPairs, List.mem_append, List.mem_map] at hp
      rcases hp with ⟨y, hy, hxy⟩ | h
      · subst hxy
        exact ⟨List.mem_cons_self x rest, List.mem_cons_of_mem x hy⟩
      · obtain ⟨h1, h2⟩ := ih h
        exact ⟨List.mem_cons_of_mem x h1, List.mem_cons_of_mem x h2⟩

theorem pairwise_indexOf_lt (l : List String) (hn : l.Nodup) :
    l.Pairwise (fun a b => l.indexOf a < l.indexOf b) := by
  induction l with
  | nil => exact List.Pairwise.nil
  | cons x rest ih =>
      obtain ⟨hx, hrest⟩ := List.nodup_cons.mp hn
      refine List.Pairwise.cons ?_ ?_
      · intro b hb
        have hbx : x ≠ b := fun h => hx (h ▸ hb)
        rw [List.indexOf_cons_self, List.indexOf_cons_ne _ hbx]
        exact Nat.succ_pos _
      · refine (ih hrest).imp_of_mem ?_
        intro a b ha hb hab
        have hax : x ≠ a := fun h => hx (h ▸ ha)
        have hbx : x ≠ b := fun h => hx (h ▸ hb)
        rw [List.indexOf_cons_ne _ hax, List.indexOf_cons_ne _ hbx]
        exact Nat.succ_lt_succ hab

theorem pairwise_listPairs (l : List String) (hn : l.Nodup) :
    (listPairs l).Pairwise (fun p q =>
      l.indexOf p.1 < l.indexOf q.1 ∨
        (p.1 = q.1 ∧ l.indexOf p.2 < l.indexOf q.2)) := by
  induction l with
  | nil => exact List.Pairwise.nil
  | cons x rest ih =>
      obtain ⟨hx, hrest⟩ := List.nodup_cons.mp hn
      rw [listPairs, List.pairwise_append]
      refine ⟨?_, ?_, ?_⟩
      · rw [List.pairwise_map]
        refine (pairwise_indexOf_lt rest hrest).imp_of_mem ?_
        intro a b ha hb hab
        have hax : x ≠ a := fun h => hx (h ▸ ha)
        have hbx : x ≠ b := fun h => hx (h ▸ hb)
        refine Or.inr ⟨rfl, ?_⟩
        simpa [List.indexOf_cons_ne _ hax, List.indexOf_cons_ne _ hbx]
          using Nat.succ_lt_succ hab
      · refine (ih hrest).imp_of_mem ?_
        intro p q hp hq hpq
        obtain ⟨hp1, hp2⟩ := listPairs_mem_components rest p hp
        obtain ⟨hq1, hq2⟩ := listPairs_mem_components rest q hq
        have hp1x : x ≠ p.1 := fun h => hx (h ▸ hp1)
        have hp2x : x ≠ p.2 := fun h => hx (h ▸ hp2)
        have hq1x : x ≠ q.1 := fun h => hx (h ▸ hq1)
        have hq2x : x ≠ q.2 := fun h => hx (h ▸ hq2)
        rcases hpq with h | ⟨heq, h⟩
        · exact Or.inl (by
            rw [List.indexOf_cons_ne _ hp1x, List.indexOf_cons_ne _ hq1x]
            exact Nat.succ_lt_succ h)
        · exact Or.inr ⟨heq, by
            rw [List.indexOf_cons_ne _ hp2x, List.indexOf_cons_ne _ hq2x]
            exact Nat.succ_lt_succ h⟩
      · intro p hp q hq
        obtain ⟨y, hy, hxy⟩ := List.mem_map.mp hp
        obtain ⟨hq1, _⟩ := listPairs_mem_components rest q hq
        have hq1x : x ≠ q.1 := fun h => hx (h ▸ hq1)
        left
        rw [← hxy]
        simp only [List.indexOf_cons_self]
        rw [List.indexOf_cons_ne _ hq1x]
        exact Nat.succ_pos _

/-! ### Positivity facts for correlation radicands -/

theorem centeredSum_two_nonneg (xs : List ℚ) : 0 ≤ centeredSum xs 2 := by
  refine List.sum_nonneg ?_
  intro q hq
  obtain ⟨x, _, hx⟩ := List.mem_map.mp hq
  rw [← hx]
  positivity

theorem pearsonOf_rad_pos (ps : List (ℚ × ℚ)) (r : SqrtQ)
    (h : pearsonOf ps = some r) : 0 < r.rad := by
  simp only [pearsonOf] at h
  split at h
  · exact absurd h (by simp)
  · rename_i hne
    have h1 := centeredSum_two_nonneg (ps.map Prod.fst)
    have h2 := centeredSum_two_nonneg (ps.map Prod.snd)
    have hr : r.rad = centeredSum (ps.map Prod.fst) 2 *
        centeredSum (ps.map Prod.snd) 2 := by
      cases h; rfl
    rw [hr]
    rcases lt_or_eq_of_le (mul_nonneg h1 h2) with hlt | heq
    · exact hlt
    · exact absurd heq.symm (by simpa [centeredSum] using hne)

theorem pearsonEntry_rad_pos (df : PDataFrame) (a b : String) (r : SqrtQ)
    (h : pearsonEntry df a b = some r) : 0 < r.rad := by
  unfold pearsonEntry at h
  split at h
  · exact pearsonOf_rad_pos _ r h
  · exact absurd h (by simp)

/-! ### Claim C7: distribution-shape decision table -/

/-- **C7.** For every numeric column analyzed for distribution shape, the
shape label is decided by this exact first-match-wins precedence over its
skewness and kurtosis: `|skew| < 0.5` and `|kurtosis| < 0.5` gives "normal";
else `skew > 1` gives "right_skewed"; else `skew < -1` gives "left_skewed";
else `kurtosis > 3` gives "heavy_tailed"; else `kurtosis < -1` gives
"light_tailed"; else "unknown". -/
theorem claim_C7_shape_precedence (s : SqrtQ) (k : ℚ) (hr : 0 ≤ s.rad) :
    ((|s.val| < 1 / 2 ∧ |k| < 1 / 2) →
      identify_distribution_type s k = "normal") ∧
    (¬(|s.val| < 1 / 2 ∧ |k| < 1 / 2) → 1 < s.val →
      identify_distribution_type s k = "right_skewed") ∧
    (¬(|s.val| < 1 / 2 ∧ |k| < 1 / 2) → ¬(1 < s.val) → s.val < -1 →
      identify_distribution_type s k = "left_skewed") ∧
    (¬(|s.val| < 1 / 2 ∧ |k| < 1 / 2) → ¬(1 < s.val) → ¬(s.val < -1) →
      3 < k → identify_distribution_type s k = "heavy_tailed") ∧
    (¬(|s.val| < 1 / 2 ∧ |k| < 1 / 2) → ¬(1 < s.val) → ¬(s.val < -1) →
      ¬(3 < k) → k < -1 → identify_distribution_type s k = "light_tailed") ∧
    (¬(|s.val| < 1 / 2 ∧ |k| < 1 / 2) → ¬(1 < s.val) → ¬(s.val < -1) →
      ¬(3 < k) → ¬(k < -1) → identify_distribution_type s k = "unknown") := by
  have e1 : (s.absLtQ (1 / 2) = true) ↔ |s.val| < 1 / 2 := by
    rw [s.absLtQ_iff _ hr]
    norm_num
  have e2 : (s.gtQ 1 = true) ↔ 1 < s.val := by
    rw [s.gtQ_iff _ hr]
    norm_num
  have e3 : (s.ltQ (-1) = true) ↔ s.val < -1 := by
    rw [s.ltQ_iff _ hr]
    norm_num
  unfold identify_distribution_type
  split_ifs with h1 h2 h3 h4 h5
  · simp only [e1] at h1
    exact ⟨fun _ => rfl, fun hA _ => absurd h1 hA, fun hA _ _ => absurd h1 hA,
      fun hA _ _ _ => absurd h1 hA, fun hA _ _ _ _ => absurd h1 hA,
      fun hA _ _ _ _ => absurd h1 hA⟩
  · simp only [e1] at h1
    simp only [e2] at h2
    exact ⟨fun hA => absurd hA h1, fun _ _ => rfl, fun _ hB _ => absurd h2 hB,
      fun _ hB _ _ => absurd h2 hB, fun _ hB _ _ _ => absurd h2 hB,
      fun _ hB _ _ _ => absurd h2 hB⟩
  · simp only [e1] at h1
    simp only [e2] at h2
    simp only [e3] at h3
    exact ⟨fun hA => absurd hA h1, fun _ hB => absurd hB h2,
      fun _ _ _ => rfl, fun _ _ hC _ => absurd h3 hC,
      fun _ _ hC _ _ => absurd h3 hC, fun _ _ hC _ _ => absurd h3 hC⟩
  · simp only [e1] at h1
    simp only [e2] at h2
    simp only [e3] at h3
    exact ⟨fun hA => absurd hA h1, fun _ hB => absurd hB h2,
      fun _ _ hC => absurd hC h3, fun _ _ _ _ => rfl,
      fun _ _ _ hD _ => absurd h4 hD, fun _ _ _ hD _ => absurd h4 hD⟩
  · simp only [e1] at h1
    simp only [e2] at h2
    simp only [e3] at h3
    exact ⟨fun hA => absurd hA h1, fun _ hB => absurd hB h2,
      fun _ _ hC => absurd hC h3, fun _ _ _ hD => absurd hD h4,
      fun _ _ _ _ _ => rfl, fun _ _ _ _ hE => absurd h5 hE⟩
  · simp only [e1] at h1
    simp only [e2] at h2
    simp only [e3] at h3
    exact ⟨fun hA => absurd hA h1, fun _ hB => absurd hB h2,
      fun _ _ hC => absurd hC h3, fun _ _ _ hD => absurd hD h4,
      fun _ _ _ _ hE => absurd hE h5, fun _ _ _ _ _ => rfl⟩

/-- Witness for C7 at the concrete input skewness `sqrt 4 = 2`,
kurtosis `0`: the second rule fires. -/
theorem claim_C7_shape_precedence_witness :
    identify_distribution_type ⟨1, 4⟩ 0 = "right_skewed" := by
  have hval : SqrtQ.val ⟨1, 4⟩ = 2 := by
    unfold SqrtQ.val
    rw [show (((⟨1, 4⟩ : SqrtQ).rad : ℚ) : ℝ) = (2 : ℝ) ^ 2 by norm_num,
      Real.sqrt_sq (by norm_num)]
    norm_num
  have h := claim_C7_shape_precedence ⟨1, 4⟩ 0 (by norm_num)
  refine h.2.1 ?_ ?_
  · intro hc
    rw [hval] at hc
    have := hc.1
    norm_num at this
  · rw [hval]
    norm_num

/-! ### Claim C2: numeric descriptive statistics -/

theorem descStats_lookup_numeric (df : PDataFrame) (schema : PSchema)
    (name : String) (c : PColumn) (hmem : name ∈ schema.numeric_columns)
    (hfind : df.findCol name = some c) (hne : c.numValues ≠ []) :
    (descriptive_statistics df schema).lookup name =
      some (.numeric (numericStatsOf c.numValues)) := by
  unfold descriptive_statistics
  rw [lookup_append_eq, lookup_keyed]
  simp only [hmem, if_true]
  unfold numericEntry
  rw [hfind]
  dsimp only
  rw [if_neg (fun h => hne (List.length_eq_zero.mp h))]
  rfl

/-- The `[1,2,3,4,5]` column of the spec's worked example. -/
def col125 : PColumn :=
  ⟨"x", .numeric, [some (.num 1), some (.num 2), some (.num 3),
    some (.num 4), some (.num 5)]⟩

/-- A one-column frame holding `[1,2,3,4,5]`. -/
def df125 : PDataFrame := ⟨[col125], 0⟩

/-- The schema inferred for `df125`. -/
def schema125 : PSchema := ⟨["x"], [], [], [], []⟩

/-- **C2.** For every numeric column with at least one non-missing value,
the descriptive-statistics entry contains count, mean, median, mode, std,
var, min, max, q25, q75, iqr, skewness, kurtosis computed with the `ddof=1`
sample-variance convention, with std, var, skewness and kurtosis equal to
`0.0` when `count ≤ 1`; for the column `[1,2,3,4,5]` it returns `mean=3`,
`median=3`, `std ≈ 1.5811`, `min=1`, `max=5`, `q25=2`, `q75=4`, `iqr=2`. -/
theorem claim_C2_descriptive_stats :
    (∀ (df : PDataFrame) (schema : PSchema) (name : String) (c : PColumn),
      name ∈ schema.numeric_columns → df.findCol name = some c →
      c.numValues ≠ [] →
      ∃ e : NumericStats,
        (descriptive_statistics df schema).lookup name =
          some (.numeric e) ∧
        e.count = c.numValues.length ∧
        e.mean = listMean c.numValues ∧
        e.median = pyMedian c.numValues ∧
        e.mode = pyMode c.numValues ∧
        (1 < c.numValues.length →
          e.var = centeredSum c.numValues 2 / ((c.numValues.length : ℚ) - 1) ∧
          e.std.val = Real.sqrt ((sampleVar c.numValues : ℚ) : ℝ) ∧
          e.skewness = pandasSkew c.numValues ∧
          e.kurtosis = pandasKurt c.numValues) ∧
        (c.numValues.length ≤ 1 →
          e.std = SqrtQ.zero ∧ e.var = 0 ∧ e.skewness = some SqrtQ.zero ∧
            e.kurtosis = some 0) ∧
        e.min = listMin c.numValues ∧ e.max = listMax c.numValues ∧
        e.q25 = pyQuantile c.numValues (1 / 4) ∧
        e.q75 = pyQuantile c.numValues (3 / 4) ∧
        e.iqr = e.q75 - e.q25) ∧
    (∃ e : NumericStats,
      (descriptive_statistics df125 schema125).lookup "x" =
        some (.numeric e) ∧
      e.mean = 3 ∧ e.median = 3 ∧ e.min = 1 ∧ e.max = 5 ∧ e.q25 = 2 ∧
      e.q75 = 4 ∧ e.iqr = 2 ∧ |e.std.val - 1.5811| < 1 / 10000) := by
  constructor
  · intro df schema name c hmem hfind hne
    refine ⟨numericStatsOf c.numValues,
      descStats_lookup_numeric df schema name c hmem hfind hne,
      rfl, rfl, rfl, rfl, ?_, ?_, rfl, rfl, rfl, rfl, rfl⟩
    · intro hlen
      refine ⟨?_, ?_, ?_, ?_⟩
      · show (if 1 < c.numValues.length then sampleVar c.numValues else 0) = _
        rw [if_pos hlen]
        rfl
      · show SqrtQ.val (if 1 < c.numValues.length then
          ⟨1, sampleVar c.numValues⟩ else SqrtQ.zero) = _
        rw [if_pos hlen]
        unfold SqrtQ.val
        rw [Rat.cast_one, one_mul]
      · show (if 1 < c.numValues.length then pandasSkew c.numValues
          else some SqrtQ.zero) = _
        rw [if_pos hlen]
      · show (if 1 < c.numValues.length then pandasKurt c.numValues
          else some 0) = _
        rw [if_pos hlen]
    · intro hlen
      have h := not_lt.mpr hlen
      refine ⟨?_, ?_, ?_, ?_⟩
      · show (if 1 < c.numValues.length then
          (⟨1, sampleVar c.numValues⟩ : SqrtQ) else SqrtQ.zero) = _
        rw [if_neg h]
      · show (if 1 < c.numValues.length then sampleVar c.numValues else 0) = _
        rw [if_neg h]
      · show (if 1 < c.numValues.length then pandasSkew c.numValues
          else some SqrtQ.zero) = _
        rw [if_neg h]
      · show (if 1 < c.numValues.length then pandasKurt c.numValues
          else some 0) = _
        rw [if_neg h]
  · have hnv : col125.numValues = [1, 2, 3, 4, 5] := by decide
    refine ⟨numericStatsOf col125.numValues, ?_, ?_, ?_, ?_, ?_, ?_, ?_,
      ?_, ?_⟩
    · exact descStats_lookup_numeric df125 schema125 "x" col125
        (by decide) (by decide) (by decide)
    · rw [hnv]; norm_num [numericStatsOf, listMean]
    · rw [hnv]
      norm_num [numericStatsOf, pyMedian, pyQuantile, sortedVals,
        List.mergeSort, show Int.toNat 1 = 1 from rfl,
        show Int.toNat 2 = 2 from rfl, show Int.toNat 3 = 3 from rfl]
    · rw [hnv]; norm_num [numericStatsOf, listMin]
    · rw [hnv]; norm_num [numericStatsOf, listMax]
    · rw [hnv]
      norm_num [numericStatsOf, pyQuantile, sortedVals, List.mergeSort,
        show Int.toNat 1 = 1 from rfl, show Int.toNat 2 = 2 from rfl,
        show Int.toNat 3 = 3 from rfl]
    · rw [hnv]
      norm_num [numericStatsOf, pyQuantile, sortedVals, List.mergeSort,
        show Int.toNat 1 = 1 from rfl, show Int.toNat 2 = 2 from rfl,
        show Int.toNat 3 = 3 from rfl]
    · rw [hnv]
      norm_num [numericStatsOf, pyQuantile, sortedVals, List.mergeSort,
        show Int.toNat 1 = 1 from rfl, show Int.toNat 2 = 2 from rfl,
        show Int.toNat 3 = 3 from rfl]
    · have hstd : (numericStatsOf col125.numValues).std = ⟨1, 5 / 2⟩ := by
        rw [hnv]
        norm_num [numericStatsOf, sampleVar, centeredSum, listMean]
      have hval : (numericStatsOf col125.numValues).std.val =
          Real.sqrt ((5 : ℝ) / 2) := by
        rw [hstd]
        unfold SqrtQ.val
        norm_num
      rw [hval, abs_lt]
      constructor
      · have h1 : (1.5810 : ℝ) < Real.sqrt ((5 : ℝ) / 2) := by
          rw [show (1.5810 : ℝ) < Real.sqrt ((5 : ℝ) / 2) ↔
            (1.5810 : ℝ) ^ 2 < (5 : ℝ) / 2 from Real.lt_sqrt (by norm_num)]
          norm_num
        linarith
      · have h2 : Real.sqrt ((5 : ℝ) / 2) < 1.5812 := by
          rw [Real.sqrt_lt' (by norm_num)]
          norm_num
        linarith

/-- Witness for C2: the general clause applied to the concrete frame
`df125` and its column `x`. -/
theorem claim_C2_descriptive_stats_witness :
    ("x" ∈ schema125.numeric_columns ∧ df125.findCol "x" = some col125 ∧
      col125.numValues ≠ []) ∧
    (∃ e : NumericStats,
      (descriptive_statistics df125 schema125).lookup "x" =
        some (.numeric e) ∧
      e.count = col125.numValues.length ∧
      e.mean = listMean col125.numValues ∧
      e.median = pyMedian col125.numValues ∧
      e.mode = pyMode col125.numValues ∧
      (1 < col125.numValues.length →
        e.var = centeredSum col125.numValues 2 /
          ((col125.numValues.length : ℚ) - 1) ∧
        e.std.val = Real.sqrt ((sampleVar col125.numValues : ℚ) : ℝ) ∧
        e.skewness = pandasSkew col125.numValues ∧
        e.kurtosis = pandasKurt col125.numValues) ∧
      (col125.numValues.length ≤ 1 →
        e.std = SqrtQ.zero ∧ e.var = 0 ∧ e.skewness = some SqrtQ.zero ∧
          e.kurtosis = some 0) ∧
      e.min = listMin col125.numValues ∧ e.max = listMax col125.numValues ∧
      e.q25 = pyQuantile col125.numValues (1 / 4) ∧
      e.q75 = pyQuantile col125.numValues (3 / 4) ∧
      e.iqr = e.q75 - e.q25) :=
  ⟨⟨by decide, by decide, by decide⟩,
    claim_C2_descriptive_stats.1 df125 schema125 "x" col125
      (by decide) (by decide) (by decide)⟩

/-! ### Claim C4: IQR outlier profile -/

theorem outliers_lookup (df : PDataFrame) (schema : PSchema) (name : String)
    (c : PColumn) (hmem : name ∈ schema.numeric_columns)
    (hfind : df.findCol name = some c) (hne : c.numValues ≠ []) :
    (outlier_analysis df schema).lookup name =
      some (outlierStatsOf c.numValues) := by
  unfold outlier_analysis
  rw [lookup_keyed]
  simp only [hmem, if_true]
  unfold outlierEntry
  rw [hfind]
  dsimp only
  rw [if_neg (fun h => hne (List.length_eq_zero.mp h))]

/-- The outlier worked-example series of the spec. -/
def outSeries : List ℚ := [10, 12, 12, 13, 12, 11, 14, 200]

/-- The column holding `outSeries`. -/
def colOut : PColumn := ⟨"y", .numeric, outSeries.map (fun q => some (.num q))⟩

/-- A one-column frame holding `outSeries`. -/
def dfOut : PDataFrame := ⟨[colOut], 0⟩

/-- The schema inferred for `dfOut`. -/
def schemaOut : PSchema := ⟨["y"], [], [], [], []⟩

/-- **C4.** For every numeric column with at least one non-missing value,
the outlier profile uses bounds `[Q1 - 1.5*IQR, Q3 + 1.5*IQR]`, counts
exactly the values strictly outside those bounds, reports
`outlier_percentage` relative to the non-null count, and sets
`has_outliers` iff `outlier_count > 0`; for `[10,12,12,13,12,11,14,200]` it
yields `Q1 = 11.75`, `Q3 = 13.25`, `IQR = 1.5`, bounds `[9.5, 15.5]`, flags
`200` as the only outlier and none of the other 7 values. -/
theorem claim_C4_outlier_profile :
    (∀ (df : PDataFrame) (schema : PSchema) (name : String) (c : PColumn),
      name ∈ schema.numeric_columns → df.findCol name = some c →
      c.numValues ≠ [] →
      ∃ o : OutlierEntry,
        (outlier_analysis df schema).lookup name = some o ∧
        o.lower_bound = pyQuantile c.numValues (1 / 4) -
          3 / 2 * (pyQuantile c.numValues (3 / 4) -
            pyQuantile c.numValues (1 / 4)) ∧
        o.upper_bound = pyQuantile c.numValues (3 / 4) +
          3 / 2 * (pyQuantile c.numValues (3 / 4) -
            pyQuantile c.numValues (1 / 4)) ∧
        o.outlier_count = (c.numValues.filter
          (fun v => v < o.lower_bound ∨ v > o.upper_bound)).length ∧
        o.outlier_percentage =
          (o.outlier_count : ℚ) / (c.numValues.length : ℚ) * 100 ∧
        (o.has_outliers = true ↔ 0 < o.outlier_count)) ∧
    (pyQuantile outSeries (1 / 4) = 47 / 4 ∧
      pyQuantile outSeries (3 / 4) = 53 / 4 ∧
      pyQuantile outSeries (3 / 4) - pyQuantile outSeries (1 / 4) = 3 / 2 ∧
      (outlierStatsOf outSeries).lower_bound = 19 / 2 ∧
      (outlierStatsOf outSeries).upper_bound = 31 / 2 ∧
      (outlierStatsOf outSeries).outlier_count = 1 ∧
      ((200 : ℚ) > (outlierStatsOf outSeries).upper_bound) ∧
      (∀ v ∈ [(10 : ℚ), 12, 12, 13, 12, 11, 14],
        ¬(v < (outlierStatsOf outSeries).lower_bound ∨
          v > (outlierStatsOf outSeries).upper_bound)) ∧
      (outlierStatsOf outSeries).outlier_percentage = 25 / 2 ∧
      (outlierStatsOf outSeries).has_outliers = true) := by
  constructor
  · intro df schema name c hmem hfind hne
    refine ⟨outlierStatsOf c.numValues,
      outliers_lookup df schema name c hmem hfind hne,
      rfl, rfl, rfl, rfl, ?_⟩
    show (decide (0 < (outlierStatsOf c.numValues).outlier_count) = true) ↔ _
    simp only [decide_eq_true_eq]
  · have hq1 : pyQuantile outSeries (1 / 4) = 47 / 4 := by
      norm_num [outSeries, pyQuantile, sortedVals, List.mergeSort,
        show Int.toNat 1 = 1 from rfl]
    have hq3 : pyQuantile outSeries (3 / 4) = 53 / 4 := by
      norm_num [outSeries, pyQuantile, sortedVals, List.mergeSort,
        show Int.toNat 5 = 5 from rfl]
    have hlo : (outlierStatsOf outSeries).lower_bound = 19 / 2 := by
      show pyQuantile outSeries (1 / 4) - 3 / 2 * _ = _
      rw [hq1, hq3]
      norm_num
    have hhi : (outlierStatsOf outSeries).upper_bound = 31 / 2 := by
      show pyQuantile outSeries (3 / 4) + 3 / 2 * _ = _
      rw [hq1, hq3]
      norm_num
    have hcnt : (outlierStatsOf outSeries).outlier_count = 1 := by
      show (outSeries.filter _).length = 1
      simp only [hq1, hq3]
      norm_num [outSeries, List.filter]
    refine ⟨hq1, hq3, by rw [hq1, hq3]; norm_num, hlo, hhi, hcnt, ?_, ?_,
      ?_, ?_⟩
    · rw [hhi]; norm_num
    · intro v hv
      rw [hlo, hhi]
      fin_cases hv <;> norm_num
    · show ((outlierStatsOf outSeries).outlier_count : ℚ) /
        (outSeries.length : ℚ) * 100 = 25 / 2
      rw [hcnt]
      norm_num [outSeries]
    · show decide (0 < (outlierStatsOf outSeries).outlier_count) = true
      rw [hcnt]
      norm_num

/-- Witness for C4: the general clause applied to the concrete frame
`dfOut` and its column `y`. -/
theorem claim_C4_outlier_profile_witness :
    ("y" ∈ schemaOut.numeric_columns ∧ dfOut.findCol "y" = some colOut ∧
      colOut.numValues ≠ []) ∧
    (∃ o : OutlierEntry,
      (outlier_analysis dfOut schemaOut).lookup "y" = some o ∧
      o.lower_bound = pyQuantile colOut.numValues (1 / 4) -
        3 / 2 * (pyQuantile colOut.numValues (3 / 4) -
          pyQuantile colOut.numValues (1 / 4)) ∧
      o.upper_bound = pyQuantile colOut.numValues (3 / 4) +
        3 / 2 * (pyQuantile colOut.numValues (3 / 4) -
          pyQuantile colOut.numValues (1 / 4)) ∧
      o.outlier_count = (colOut.numValues.filter
        (fun v => v < o.lower_bound ∨ v > o.upper_bound)).length ∧
      o.outlier_percentage =
        (o.outlier_count : ℚ) / (colOut.numValues.length : ℚ) * 100 ∧
      (o.has_outliers = true ↔ 0 < o.outlier_count)) :=
  ⟨⟨by decide, by decide, by decide⟩,
    claim_C4_outlier_profile.1 dfOut schemaOut "y" colOut
      (by decide) (by decide) (by decide)⟩

/-! ### Claim C6: numeric entries exist unless all values are missing -/

/-- **C6.** For every dataset and every column classified Numeric in the
schema, either the descriptive-statistics result contains an entry for that
column, or every value in that column was missing; a numeric column whose
values are all missing is omitted (no entry) without the operation failing,
and the result set is always returned. -/
theorem claim_C6_numeric_entry_or_all_missing (df : PDataFrame)
    (schema : PSchema) (name : String) (c : PColumn)
    (hmem : name ∈ schema.numeric_columns)
    (hfind : df.findCol name = some c) (htyped : c.NumericTyped) :
    ((∃ e, (descriptive_statistics df schema).lookup name = some e) ∨
      ∀ v ∈ c.values, v = none) ∧
    ((∀ v ∈ c.values, v = none) →
      (descriptive_statistics df schema).lookup name = none) := by
  constructor
  · by_cases hall : ∀ v ∈ c.values, v = none
    · exact Or.inr hall
    · left
      push_neg at hall
      obtain ⟨v, hv, hvne⟩ := hall
      match v, hvne with
      | some pval, _ =>
        have hnum := htyped (some pval) hv
        simp only [Option.map_some', Option.getD_some] at hnum
        match pval, hnum with
        | .num q, _ =>
          have hqmem : q ∈ c.numValues := by
            unfold PColumn.numValues
            exact List.mem_filterMap.mpr ⟨some (.num q), hv, rfl⟩
          have hne : c.numValues ≠ [] := fun h => by
            rw [h] at hqmem
            exact List.not_mem_nil q hqmem
          exact ⟨_, descStats_lookup_numeric df schema name c hmem hfind hne⟩
  · intro hall
    have hnum : c.numValues = [] := by
      unfold PColumn.numValues
      rw [List.filterMap_eq_nil_iff]
      intro v hv
      rw [hall v hv]
    have hnonnull : c.nonNull = [] := by
      unfold PColumn.nonNull
      rw [List.filterMap_eq_nil_iff]
      intro v hv
      rw [hall v hv]
      rfl
    unfold descriptive_statistics
    rw [lookup_append_eq]
    simp only [lookup_keyed, hmem, if_true]
    unfold numericEntry
    rw [hfind]
    dsimp only
    rw [if_pos (by rw [hnum]; rfl)]
    simp only [Option.map_none']
    by_cases hcat : name ∈ schema.categorical_columns
    · simp only [hcat, if_true]
      unfold categoricalEntry
      rw [hfind]
      dsimp only
      rw [if_pos (by rw [hnonnull]; rfl)]
      rfl
    · simp only [hcat, if_false]

/-- Witness for C6 at the frame `df125`: the column has data, so an entry
exists. -/
theorem claim_C6_witness :
    ("x" ∈ schema125.numeric_columns ∧ df125.findCol "x" = some col125 ∧
      col125.NumericTyped) ∧
    (((∃ e, (descriptive_statistics df125 schema125).lookup "x" = some e) ∨
        ∀ v ∈ col125.values, v = none) ∧
      ((∀ v ∈ col125.values, v = none) →
        (descriptive_statistics df125 schema125).lookup "x" = none)) :=
  ⟨⟨by decide, by decide, by decide⟩,
    claim_C6_numeric_entry_or_all_missing df125 schema125 "x" col125
      (by decide) (by decide) (by decide)⟩

/-! ### Claim C10: zero mean forces the low-variability insight -/

/-- **C10.** For every numeric column among the first 5 that has a
descriptive-statistics entry and whose mean equals exactly 0, the
statistical-insight step sets the coefficient of variation to 0 and
therefore always emits a "Low variability" insight for that column,
regardless of its standard deviation. -/
theorem claim_C10_zero_mean_low_variability (schema : PSchema)
    (stats : Summary) (name : String) (e : NumericStats)
    (hmem : name ∈ schema.numeric_columns.take 5)
    (hlook : stats.descriptive_stats.lookup name = some (.numeric e))
    (hmean : e.mean = 0) :
    (if e.mean ≠ 0 then e.std.divQ |e.mean| else SqrtQ.zero) = SqrtQ.zero ∧
    SqrtQ.zero.toFixed 2 = "0.00" ∧
    lowVariabilityString name SqrtQ.zero ∈
      statistical_insights schema stats := by
  have hgt : SqrtQ.zero.gtQ 1 = false := by
    norm_num [SqrtQ.gtQ, SqrtQ.sgn, SqrtQ.zero]
  have hlt : SqrtQ.zero.ltQ (1 / 10) = true := by
    norm_num [SqrtQ.ltQ, SqrtQ.sgn, SqrtQ.zero]
  refine ⟨by simp [hmean], ?_, ?_⟩
  · have hn : sqrtRoundNat ((|SqrtQ.zero.coef| * 10 ^ 2) ^ 2 *
        SqrtQ.zero.rad) = 0 := by
      norm_num [sqrtRoundNat, SqrtQ.zero]
    unfold SqrtQ.toFixed
    simp only [hn]
    norm_num [SqrtQ.sgn, SqrtQ.zero, padDigits]
    decide
  · unfold statistical_insights
    refine List.mem_append_left _ ?_
    refine List.mem_flatMap.mpr ⟨name, hmem, ?_⟩
    rw [hlook]
    show lowVariabilityString name SqrtQ.zero ∈ numericColInsights name e
    unfold numericColInsights
    simp only [hmean, ne_eq, not_true_eq_false, if_false]
    refine List.mem_append_right _ ?_
    simp only [hgt, hlt]
    simp

/-- Witness for C10 on a concrete summary entry with zero mean and nonzero
standard deviation. -/
def statsC10 : Summary :=
  ⟨[("b", .numeric (numericStatsOf [1, -1, -1, 1]))], none, [], none, []⟩

/-- The schema used by the C10 witness. -/
def schemaC10 : PSchema := ⟨["b"], [], [], [], []⟩

theorem claim_C10_witness :
    ("b" ∈ schemaC10.numeric_columns.take 5 ∧
      statsC10.descriptive_stats.lookup "b" =
        some (.numeric (numericStatsOf [1, -1, -1, 1])) ∧
      (numericStatsOf [1, -1, -1, 1]).mean = 0) ∧
    ((if (numericStatsOf [1, -1, -1, 1]).mean ≠ 0 then
        (numericStatsOf [1, -1, -1, 1]).std.divQ
          |(numericStatsOf [1, -1, -1, 1]).mean|
      else SqrtQ.zero) = SqrtQ.zero ∧
    SqrtQ.zero.toFixed 2 = "0.00" ∧
    lowVariabilityString "b" SqrtQ.zero ∈
      statistical_insights schemaC10 statsC10) :=
  ⟨⟨by decide, by rfl, by norm_num [numericStatsOf, listMean]⟩,
    claim_C10_zero_mean_low_variability schemaC10 statsC10 "b"
      (numericStatsOf [1, -1, -1, 1]) (by decide) (by rfl)
      (by norm_num [numericStatsOf, listMean])⟩

/-! ### Claim C3: schema inference on a zero-row dataset -/

instance (df : PDataFrame) : Decidable df.Rectangular :=
  inferInstanceAs (Decidable (∀ c ∈ df.cols, c.values.length = df.nRows))

/-- A zero-row frame with a single object-dtype column. -/
def dfC3 : PDataFrame := ⟨[⟨"t", .obj, []⟩], 0⟩

/-- Counterexample to **C3** as stated: on a zero-row dataset with an
object column, `_analyze_schema` hits the unguarded
`nunique() / len(col_data)` division and raises `ZeroDivisionError` instead
of reporting the column as Text with zero counts. -/
theorem claim_C3_counterexample :
    analyze_schema dfC3 = Except.error () ∧
      ∀ s : PSchema, analyze_schema dfC3 ≠ Except.ok s := by
  refine ⟨by rfl, ?_⟩
  intro s h
  rw [show analyze_schema dfC3 = Except.error () from rfl] at h
  exact Except.noConfusion h

theorem buildSchema_error (l : List PColumn)
    (h : ∃ c ∈ l, classifyColumn c = .error ()) :
    buildSchema l = .error () := by
  induction l with
  | nil => simp at h
  | cons c rest ih =>
      obtain ⟨c', hc', herr⟩ := h
      cases hcl : classifyColumn c with
      | error e =>
          cases e
          show (do
            let k ← classifyColumn c
            let s ← buildSchema rest
            Except.ok (s.prepend c.name k)) = Except.error ()
          rw [hcl]
          rfl
      | ok k =>
          rcases List.mem_cons.mp hc' with rfl | hmem
          · exact absurd hcl (by rw [herr]; simp)
          · have hrest := ih ⟨c', hmem, herr⟩
            show (do
              let k ← classifyColumn c
              let s ← buildSchema rest
              Except.ok (s.prepend c.name k)) = Except.error ()
            rw [hcl, hrest]
            rfl

/-- **C3 (amended).** The code has no divide-by-zero guard: on a zero-row
dataset containing at least one object-dtype column, `_analyze_schema`
raises `ZeroDivisionError`; the pipeline avoids this only because
`analyze_dataset` rejects every empty dataframe up front with a
`ValueError` before schema inference runs. -/
theorem claim_C3_amended :
    (∀ df : PDataFrame, df.Rectangular → df.nRows = 0 →
      (∃ c ∈ df.cols, c.dtype = .obj) → analyze_schema df = .error ()) ∧
    (∀ (shapiro : List ℚ → ℚ × ℚ) (df : PDataFrame) (fn now : String),
      df.isEmptyDF = true →
      analyze_dataset shapiro df fn now =
        .error "Failed to load dataset or dataset is empty") := by
  constructor
  · intro df hrect hrows ⟨c, hc, hdt⟩
    refine buildSchema_error df.cols ⟨c, hc, ?_⟩
    unfold classifyColumn
    rw [hdt]
    rw [if_pos (by rw [hrect c hc, hrows])]
  · intro shapiro df fn now h
    unfold analyze_dataset
    rw [if_pos h]

/-- A trivial stand-in for the external normality test, used only to
instantiate the `shapiro` parameter at concrete inputs. -/
def shapiroZero : List ℚ → ℚ × ℚ := fun _ => (0, 0)

/-- Witness for the amended C3 at the concrete zero-row frame `dfC3`. -/
theorem claim_C3_amended_witness :
    (dfC3.Rectangular ∧ dfC3.nRows = 0 ∧ (∃ c ∈ dfC3.cols, c.dtype = .obj) ∧
      dfC3.isEmptyDF = true) ∧
    analyze_schema dfC3 = .error () ∧
    analyze_dataset shapiroZero dfC3 "f.csv" "2024-01-01T00:00:00" =
      .error "Failed to load dataset or dataset is empty" :=
  ⟨⟨by decide, by decide, by decide, by decide⟩,
    claim_C3_amended.1 dfC3 (by decide) (by decide) (by decide),
    claim_C3_amended.2 shapiroZero dfC3 "f.csv" "2024-01-01T00:00:00"
      (by decide)⟩

/-! ### Claim C1: pipeline idempotence -/

/-- The timestamp field of a pipeline outcome (empty on error). -/
def tsProj : Except String AnalysisResult → String
  | .ok r => r.timestamp
  | .error _ => ""

/-- Counterexample to **C1** as stated: two invocations of
`analyze_dataset` on the same immutable dataset differ field-for-field,
because the result embeds `datetime.now().isoformat()` as its `timestamp`
field. -/
theorem claim_C1_counterexample :
    analyze_dataset shapiroZero df125 "f.csv" "2024-01-01T00:00:00" ≠
      analyze_dataset shapiroZero df125 "f.csv" "2024-01-01T00:00:01" := by
  intro h
  have h2 := congrArg tsProj h
  rw [show tsProj (analyze_dataset shapiroZero df125 "f.csv"
      "2024-01-01T00:00:00") = "2024-01-01T00:00:00" from rfl] at h2
  rw [show tsProj (analyze_dataset shapiroZero df125 "f.csv"
      "2024-01-01T00:00:01") = "2024-01-01T00:00:01" from rfl] at h2
  exact absurd h2 (by decide)

/-- **C1 (amended).** For the statistical core (loading/cleaning, chart
generation and AI prose are external collaborators), two invocations of the
pipeline on the same immutable dataset agree on every field except
`timestamp`, which records the wall-clock invocation time; the schema,
statistics, insights and dataset info are identical.  (The hypothesis that
every column has at most 5000 non-missing values scopes the statement to
datasets on which the normality test consumes a permutation of all values
rather than a random 5000-value subsample.) -/
theorem claim_C1_amended (shapiro : List ℚ → ℚ × ℚ) (df : PDataFrame)
    (fn t1 t2 : String)
    (hcap : ∀ c ∈ df.cols, c.numValues.length ≤ 5000)
    (r1 r2 : AnalysisResult)
    (h1 : analyze_dataset shapiro df fn t1 = .ok r1)
    (h2 : analyze_dataset shapiro df fn t2 = .ok r2) :
    r1.timestamp = t1 ∧ r2.timestamp = t2 ∧ r1.schema = r2.schema ∧
    r1.statistics = r2.statistics ∧ r1.insights = r2.insights ∧
    r1.rows = r2.rows ∧ r1.columns = r2.columns ∧
    r1.size_mb = r2.size_mb ∧ r1.filename = r2.filename := by
  unfold analyze_dataset at h1 h2
  split at h1
  · exact absurd h1 (by simp)
  · split at h2
    · exact absurd h2 (by simp)
    · cases hs : analyze_schema df with
      | error e =>
          rw [hs] at h1
          exact absurd h1 (by simp)
      | ok schema =>
          simp only [hs] at h1 h2
          simp only [Except.ok.injEq] at h1 h2
          rw [← h1, ← h2]
          exact ⟨rfl, rfl, rfl, rfl, rfl, rfl, rfl, rfl, rfl⟩

/-- Witness for the amended C1 at the concrete frame `df125` and two
distinct timestamps. -/
theorem claim_C1_amended_witness :
    (∀ c ∈ df125.cols, c.numValues.length ≤ 5000) ∧
    ∃ r1 r2 : AnalysisResult,
      analyze_dataset shapiroZero df125 "f.csv" "t1" = .ok r1 ∧
      analyze_dataset shapiroZero df125 "f.csv" "t2" = .ok r2 ∧
      (r1.timestamp = "t1" ∧ r2.timestamp = "t2" ∧ r1.schema = r2.schema ∧
        r1.statistics = r2.statistics ∧ r1.insights = r2.insights ∧
        r1.rows = r2.rows ∧ r1.columns = r2.columns ∧
        r1.size_mb = r2.size_mb ∧ r1.filename = r2.filename) := by
  have h1 : ∃ r, analyze_dataset shapiroZero df125 "f.csv" "t1" =
      Except.ok r := ⟨_, rfl⟩
  have h2 : ∃ r, analyze_dataset shapiroZero df125 "f.csv" "t2" =
      Except.ok r := ⟨_, rfl⟩
  obtain ⟨r1, h1⟩ := h1
  obtain ⟨r2, h2⟩ := h2
  exact ⟨by decide, r1, r2, h1, h2,
    claim_C1_amended shapiroZero df125 "f.csv" "t1" "t2" (by decide)
      r1 r2 h1 h2⟩

/-! ### Claim C8: Pearson-matrix symmetry and diagonal -/

theorem zip_self (l : List α) : l.zip l = l.map (fun v => (v, v)) := by
  induction l with
  | nil => rfl
  | cons x rest ih => simp [List.zip_cons_cons, ih]

theorem pairedVals_swap (ca cb : PColumn) :
    pairedVals cb ca = (pairedVals ca cb).map Prod.swap := by
  unfold pairedVals
  rw [← List.zip_swap ca.values cb.values, List.filterMap_map,
    List.map_filterMap]
  refine List.filterMap_congr ?_
  intro p _
  rcases p with ⟨_ | ⟨q | s⟩, _ | ⟨q' | s'⟩⟩ <;> rfl

theorem pearsonOf_swap (ps : List (ℚ × ℚ)) :
    pearsonOf (ps.map Prod.swap) = pearsonOf ps := by
  simp only [pearsonOf]
  have hfst : (ps.map Prod.swap).map Prod.fst = ps.map Prod.snd := by
    simp
  have hsnd : (ps.map Prod.swap).map Prod.snd = ps.map Prod.fst := by
    simp
  rw [hfst, hsnd]
  have hsxy : ((ps.map Prod.swap).map (fun p =>
      (p.1 - listMean (ps.map Prod.snd)) *
        (p.2 - listMean (ps.map Prod.fst)))).sum =
      (ps.map (fun p =>
        (p.1 - listMean (ps.map Prod.fst)) *
          (p.2 - listMean (ps.map Prod.snd)))).sum := by
    rw [List.map_map]
    refine congrArg List.sum (List.map_congr_left ?_)
    intro p _
    simp only [Function.comp_apply, Prod.fst_swap, Prod.snd_swap]
    ring
  rw [hsxy, mul_comm (centeredSum (ps.map Prod.snd) 2)
    (centeredSum (ps.map Prod.fst) 2)]

theorem pairedVals_self (c : PColumn) :
    pairedVals c c = c.numValues.map (fun q => (q, q)) := by
  unfold pairedVals PColumn.numValues
  rw [zip_self, List.filterMap_map, List.map_filterMap]
  refine List.filterMap_congr ?_
  intro v _
  rcases v with _ | ⟨q | s⟩ <;> rfl

/-- A zero-variance (constant) numeric column next to a regular one. -/
def dfConst : PDataFrame :=
  ⟨[⟨"a", .numeric, [some (.num 1), some (.num 1), some (.num 1)]⟩,
    ⟨"b", .numeric, [some (.num 1), some (.num 2), some (.num 3)]⟩], 0⟩

/-- The schema inferred for `dfConst`. -/
def schemaConst : PSchema := ⟨["a", "b"], [], [], [], []⟩

/-- Counterexample to **C8** as stated: `dfConst` has two numeric columns,
but the Pearson diagonal entry of the constant column `a` is NaN (pandas
yields `0/0` for a zero-variance column), not `1.0`. -/
theorem claim_C8_counterexample :
    analyze_schema dfConst = .ok schemaConst ∧
    schemaConst.numeric_columns = ["a", "b"] ∧
    pearsonEntry dfConst "a" "a" = none := by
  refine ⟨by rfl, by rfl, ?_⟩
  have hfind : dfConst.findCol "a" =
      some ⟨"a", .numeric, [some (.num 1), some (.num 1), some (.num 1)]⟩ :=
    by rfl
  have hpv : pairedVals
      ⟨"a", .numeric, [some (.num 1), some (.num 1), some (.num 1)]⟩
      ⟨"a", .numeric, [some (.num 1), some (.num 1), some (.num 1)]⟩ =
      [(1, 1), (1, 1), (1, 1)] := by decide
  unfold pearsonEntry
  rw [hfind]
  dsimp only
  rw [hpv]
  norm_num [pearsonOf, centeredSum, listMean]

/-- **C8 (amended).** The Pearson matrix is always symmetric
(`pearson[A][B] = pearson[B][A]`, NaN entries included), and the diagonal
entry `pearson[A][A]` equals `1.0` for every numeric column with nonzero
centered sum of squares; for a constant (zero-variance) column the diagonal
entry is NaN rather than `1.0`. -/
theorem claim_C8_amended :
    (∀ (df : PDataFrame) (a b : String),
      pearsonEntry df a b = pearsonEntry df b a) ∧
    (∀ (df : PDataFrame) (a : String) (c : PColumn),
      df.findCol a = some c → centeredSum c.numValues 2 ≠ 0 →
      ∃ r, pearsonEntry df a a = some r ∧ r.val = 1) := by
  constructor
  · intro df a b
    unfold pearsonEntry
    cases hfa : df.findCol a <;> cases hfb : df.findCol b <;> dsimp only
    rw [pairedVals_swap, pearsonOf_swap]
  · intro df a c hfind hvar
    unfold pearsonEntry
    rw [hfind]
    dsimp only
    rw [pairedVals_self]
    simp only [pearsonOf]
    have hfst : (c.numValues.map (fun q => (q, q))).map Prod.fst =
        c.numValues := by
      rw [List.map_map]
      exact (List.map_congr_left fun q _ => rfl).trans (List.map_id _)
    have hsnd : (c.numValues.map (fun q => (q, q))).map Prod.snd =
        c.numValues := by
      rw [List.map_map]
      exact (List.map_congr_left fun q _ => rfl).trans (List.map_id _)
    rw [hfst, hsnd]
    have hsxy : ((c.numValues.map (fun q => (q, q))).map (fun p =>
        (p.1 - listMean c.numValues) * (p.2 - listMean c.numValues))).sum =
        centeredSum c.numValues 2 := by
      rw [List.map_map]
      unfold centeredSum
      refine congrArg List.sum (List.map_congr_left ?_)
      intro q _
      simp only [Function.comp_apply]
      ring
    rw [hsxy]
    set S := centeredSum c.numValues 2 with hS
    rw [if_neg (by simpa [mul_self_eq_zero] using hvar)]
    refine ⟨_, rfl, ?_⟩
    have hSpos : 0 < S := lt_of_le_of_ne (centeredSum_two_nonneg _)
      (Ne.symm hvar)
    unfold SqrtQ.val
    have hcast : ((S * S : ℚ) : ℝ) = ((S : ℝ) * (S : ℝ)) := by push_cast; ring
    rw [hcast, Real.sqrt_mul_self (by exact_mod_cast hSpos.le)]
    have hS0 : ((S : ℝ)) ≠ 0 := by exact_mod_cast hvar
    push_cast
    field_simp

/-- Witness for the amended C8: the diagonal of the non-constant column `b`
of `dfConst` is exactly 1. -/
theorem claim_C8_amended_witness :
    (dfConst.findCol "b" =
        some ⟨"b", .numeric, [some (.num 1), some (.num 2), some (.num 3)]⟩ ∧
      centeredSum
        (PColumn.numValues
          ⟨"b", .numeric, [some (.num 1), some (.num 2), some (.num 3)]⟩)
        2 ≠ 0) ∧
    ∃ r, pearsonEntry dfConst "b" "b" = some r ∧ r.val = 1 := by
  have hnv : PColumn.numValues
      ⟨"b", .numeric, [some (.num 1), some (.num 2), some (.num 3)]⟩ =
      [1, 2, 3] := by decide
  have hvar : centeredSum
      (PColumn.numValues
        ⟨"b", .numeric, [some (.num 1), some (.num 2), some (.num 3)]⟩)
      2 ≠ 0 := by
    rw [hnv]
    norm_num [centeredSum, listMean]
  exact ⟨⟨rfl, hvar⟩, claim_C8_amended.2 dfConst "b"
    ⟨"b", .numeric, [some (.num 1), some (.num 2), some (.num 3)]⟩
    rfl hvar⟩

/-! ### Claim C9: overview head, quality banding, no-strong-correlation -/

/-- **C9.** For every non-empty dataset, the insight list's first entry is
the overview string containing the row and column counts; the quality
insight is banded by the overall missing percentage as excellent at 0%,
good below 5%, moderate below 15%, and poor otherwise, plus a flag listing
up to 3 columns with more than 20% missing; and when no numeric pair has
`|Pearson r| > 0.7`, the correlation category contributes the single
"no strong correlation" insight. -/
theorem claim_C9_insights (shapiro : List ℚ → ℚ × ℚ) (df : PDataFrame)
    (schema : PSchema) (hne : df.isEmptyDF = false) :
    let stats := generate_summary shapiro df schema
    let pct := (missing_data_analysis df).summary.overall_missing_percentage
    let cwm := (missing_data_analysis df).summary.columns_with_missing
    let highCols := ((missing_data_analysis df).perColumn.filter
      (fun p => p.2.missing_percentage > 20)).map Prod.fst
    (generate_insights df schema stats).head? =
      some (overviewString df.nRows df.nCols) ∧
    (pct = 0 → (data_quality_insights stats).head? =
      some "✅ Excellent data quality: No missing values detected") ∧
    (¬pct = 0 → pct < 5 → (data_quality_insights stats).head? =
      some ("✅ Good data quality: Only " ++ fixedQ pct 1 ++
        "% missing values")) ∧
    (¬pct = 0 → ¬pct < 5 → pct < 15 →
      (data_quality_insights stats).head? =
        some ("⚠️ Moderate data quality: " ++ fixedQ pct 1 ++
          "% missing values need attention")) ∧
    (¬pct = 0 → ¬pct < 5 → ¬pct < 15 →
      (data_quality_insights stats).head? =
        some ("🚨 Poor data quality: " ++ fixedQ pct 1 ++
          "% missing values require significant cleaning")) ∧
    ((∀ p ∈ listPairs schema.numeric_columns, ∀ r,
        pearsonEntry df p.1 p.2 = some r → r.absGtQ (7 / 10) = false) →
      correlation_insights stats = [noStrongCorrString]) ∧
    ((data_quality_insights stats).drop 1 =
      (if 0 < cwm then
        ["🔍 " ++ toString cwm ++ " columns contain missing values"]
      else []) ++
      (if highCols.isEmpty then []
       else ["⚠️ High missing rates in: " ++
         String.intercalate ", " (highCols.take 3)])) := by
  intro stats pct cwm highCols
  have hifn : (if df.isEmptyDF then Summary.emptySummary else
      { descriptive_stats := descriptive_statistics df schema
        correlations := correlation_analysis df schema
        distributions := distribution_analysis shapiro df schema
        missing_data := some (missing_data_analysis df)
        outliers := outlier_analysis df schema }) =
      { descriptive_stats := descriptive_statistics df schema
        correlations := correlation_analysis df schema
        distributions := distribution_analysis shapiro df schema
        missing_data := some (missing_data_analysis df)
        outliers := outlier_analysis df schema } := by
    rw [if_neg (by rw [hne]; exact Bool.false_ne_true)]
  have hstats : stats =
      { descriptive_stats := descriptive_statistics df schema
        correlations := correlation_analysis df schema
        distributions := distribution_analysis shapiro df schema
        missing_data := some (missing_data_analysis df)
        outliers := outlier_analysis df schema } := by
    show generate_summary shapiro df schema = _
    unfold generate_summary
    exact hifn
  have hquality : ∀ s : String,
      (data_quality_insights stats).head? = some s ↔
      ((if pct = 0 then ["✅ Excellent data quality: No missing values detected"]
        else if pct < 5 then
          ["✅ Good data quality: Only " ++ fixedQ pct 1 ++ "% missing values"]
        else if pct < 15 then
          ["⚠️ Moderate data quality: " ++ fixedQ pct 1 ++
            "% missing values need attention"]
        else
          ["🚨 Poor data quality: " ++ fixedQ pct 1 ++
            "% missing values require significant cleaning"]).head? = some s) := by
    intro s
    unfold data_quality_insights
    rw [hstats]
    simp only [Option.map_some', Option.getD_some]
    constructor
    · intro h
      rw [← h]
      split_ifs <;> rfl
    · intro h
      rw [← h]
      split_ifs <;> rfl
  refine ⟨?_, ?_, ?_, ?_, ?_, ?_, ?_⟩
  · unfold generate_insights dataset_overview_insights
    simp [List.head?]
  · intro h0
    rw [hquality, if_pos h0]
    rfl
  · intro h0 h5
    rw [hquality, if_neg h0, if_pos h5]
    rfl
  · intro h0 h5 h15
    rw [hquality, if_neg h0, if_neg h5, if_pos h15]
    rfl
  · intro h0 h5 h15
    rw [hquality, if_neg h0, if_neg h5, if_neg h15]
    rfl
  · intro hno
    unfold correlation_insights
    rw [hstats]
    dsimp only
    cases hca : correlation_analysis df schema with
    | none => rfl
    | some co =>
        have hstrong : co.strong = [] := by
          unfold correlation_analysis at hca
          by_cases hl : 1 < schema.numeric_columns.length
          · rw [if_pos hl] at hca
            have hco := (Option.some.injEq _ _).mp hca
            rw [← hco]
            dsimp only
            unfold strong_correlations
            rw [List.filterMap_eq_nil_iff]
            intro p hp
            unfold strongCorrOf
            cases hpe : pearsonEntry df p.1 p.2 with
            | none => rfl
            | some r =>
                dsimp only
                rw [if_neg]
                rw [hno p hp r hpe]
                exact Bool.false_ne_true
          · rw [if_neg hl] at hca
            exact absurd hca (by simp)
        simp [hstrong]
  · unfold data_quality_insights
    rw [hstats]
    simp only [Option.map_some', Option.getD_some]
    split_ifs <;> rfl

/-- A non-empty frame with two uncorrelated numeric columns and no missing
values. -/
def dfC9 : PDataFrame :=
  ⟨[⟨"a", .numeric, [some (.num 1), some (.num 2), some (.num 3),
      some (.num 4)]⟩,
    ⟨"b", .numeric, [some (.num 1), some (.num (-1)), some (.num (-1)),
      some (.num 1)]⟩], 1⟩

/-- The schema inferred for `dfC9`. -/
def schemaC9 : PSchema := ⟨["a", "b"], [], [], [], []⟩

/-- Witness for C9 at the concrete frame `dfC9`. -/
theorem claim_C9_insights_witness :
    (dfC9.isEmptyDF = false ∧
      (∀ p ∈ listPairs schemaC9.numeric_columns, ∀ r,
        pearsonEntry dfC9 p.1 p.2 = some r → r.absGtQ (7 / 10) = false) ∧
      (missing_data_analysis dfC9).summary.overall_missing_percentage = 0) ∧
    (let stats := generate_summary shapiroZero dfC9 schemaC9
     let pct := (missing_data_analysis dfC9).summary.overall_missing_percentage
     let cwm := (missing_data_analysis dfC9).summary.columns_with_missing
     let highCols := ((missing_data_analysis dfC9).perColumn.filter
       (fun p => p.2.missing_percentage > 20)).map Prod.fst
     (generate_insights dfC9 schemaC9 stats).head? =
       some (overviewString dfC9.nRows dfC9.nCols) ∧
     (pct = 0 → (data_quality_insights stats).head? =
       some "✅ Excellent data quality: No missing values detected") ∧
     (¬pct = 0 → pct < 5 → (data_quality_insights stats).head? =
       some ("✅ Good data quality: Only " ++ fixedQ pct 1 ++
         "% missing values")) ∧
     (¬pct = 0 → ¬pct < 5 → pct < 15 →
       (data_quality_insights stats).head? =
         some ("⚠️ Moderate data quality: " ++ fixedQ pct 1 ++
           "% missing values need attention")) ∧
     (¬pct = 0 → ¬pct < 5 → ¬pct < 15 →
       (data_quality_insights stats).head? =
         some ("🚨 Poor data quality: " ++ fixedQ pct 1 ++
           "% missing values require significant cleaning")) ∧
     ((∀ p ∈ listPairs schemaC9.numeric_columns, ∀ r,
         pearsonEntry dfC9 p.1 p.2 = some r → r.absGtQ (7 / 10) = false) →
       correlation_insights stats = [noStrongCorrString]) ∧
     ((data_quality_insights stats).drop 1 =
       (if 0 < cwm then
         ["🔍 " ++ toString cwm ++ " columns contain missing values"]
       else []) ++
       (if highCols.isEmpty then []
        else ["⚠️ High missing rates in: " ++
          String.intercalate ", " (highCols.take 3)]))) := by
  have hpe : pearsonEntry dfC9 "a" "b" = some ⟨0, 20⟩ := by
    have hpv : pairedVals
        ⟨"a", .numeric, [some (.num 1), some (.num 2), some (.num 3),
          some (.num 4)]⟩
        ⟨"b", .numeric, [some (.num 1), some (.num (-1)), some (.num (-1)),
          some (.num 1)]⟩ = [(1, 1), (2, -1), (3, -1), (4, 1)] := by decide
    unfold pearsonEntry
    rw [show dfC9.findCol "a" = some ⟨"a", .numeric,
      [some (.num 1), some (.num 2), some (.num 3), some (.num 4)]⟩ from rfl]
    rw [show dfC9.findCol "b" = some ⟨"b", .numeric,
      [some (.num 1), some (.num (-1)), some (.num (-1)),
        some (.num 1)]⟩ from rfl]
    dsimp only
    rw [hpv]
    norm_num [pearsonOf, centeredSum, listMean]
  have hno : ∀ p ∈ listPairs schemaC9.numeric_columns, ∀ r,
      pearsonEntry dfC9 p.1 p.2 = some r → r.absGtQ (7 / 10) = false := by
    intro p hp r hr
    have hp' : p = ("a", "b") := by
      rw [show listPairs schemaC9.numeric_columns = [("a", "b")] from rfl]
        at hp
      simpa using hp
    rw [hp'] at hr
    rw [hpe] at hr
    have hr' : r = ⟨0, 20⟩ := by
      exact (Option.some.injEq _ _).mp hr.symm
    rw [hr']
    norm_num [SqrtQ.absGtQ]
  have hpct : (missing_data_analysis dfC9).summary.overall_missing_percentage
      = 0 := by
    norm_num [missing_data_analysis, dfC9, PColumn.missingCount,
      PDataFrame.nRows, PDataFrame.nCols]
  exact ⟨⟨by decide, hno, hpct⟩,
    claim_C9_insights shapiroZero dfC9 schemaC9 (by decide)⟩

/-! ### Claim C5: strong-correlation extraction -/

theorem strongCorrOf_eq_some (df : PDataFrame) (p : String × String)
    (rec : StrongCorr) :
    strongCorrOf df p = some rec ↔
      ∃ r, pearsonEntry df p.1 p.2 = some r ∧ r.absGtQ (7 / 10) = true ∧
        rec = ⟨p.1, p.2, r,
          if r.absGtQ (8 / 10) then "strong" else "moderate"⟩ := by
  unfold strongCorrOf
  cases hpe : pearsonEntry df p.1 p.2 with
  | none => simp
  | some r =>
      dsimp only
      by_cases h7 : r.absGtQ (7 / 10) = true
      · rw [if_pos h7]
        constructor
        · intro h
          exact ⟨r, rfl, h7, ((Option.some.injEq _ _).mp h).symm⟩
        · rintro ⟨r', hr', _, hrec⟩
          have hrr : r' = r := ((Option.some.injEq _ _).mp hr').symm
          rw [hrec, hrr]
      · rw [if_neg h7]
        constructor
        · intro h
          exact absurd h (by simp)
        · rintro ⟨r', hr', h7', _⟩
          have hrr : r' = r := ((Option.some.injEq _ _).mp hr').symm
          rw [hrr] at h7'
          exact absurd h7' h7

theorem strongCorrOf_columns (df : PDataFrame) (p : String × String)
    (rec : StrongCorr) (h : strongCorrOf df p = some rec) :
    rec.column1 = p.1 ∧ rec.column2 = p.2 := by
  obtain ⟨r, _, _, hrec⟩ := (strongCorrOf_eq_some df p rec).mp h
  rw [hrec]
  exact ⟨rfl, rfl⟩

theorem nodup_getElem?_ne (l : List String) (hn : l.Nodup) (i j : ℕ)
    (hij : i ≠ j) (a b : String) (ha : l[i]? = some a) (hb : l[j]? = some b) :
    a ≠ b := by
  obtain ⟨hi, ha'⟩ := List.getElem?_eq_some.mp ha
  obtain ⟨hj, hb'⟩ := List.getElem?_eq_some.mp hb
  intro hab
  refine hij ((@List.Nodup.getElem_inj_iff _ l hn i hi j hj).mp ?_)
  rw [ha', hb', hab]

theorem nodup_getElem?_inj (l : List String) (hn : l.Nodup) (i j : ℕ)
    (a : String) (ha : l[i]? = some a) (hb : l[j]? = some a) : i = j := by
  by_contra hij
  exact nodup_getElem?_ne l hn i j hij a a ha hb rfl

/-- **C5.** For every dataset with at least 2 numeric columns, the
strong-correlation list contains exactly the unordered pairs (`i < j` in
column declaration order) of distinct numeric columns whose Pearson
coefficient satisfies `|r| > 0.7`, each labelled "strong" if `|r| > 0.8`
and "moderate" otherwise, with no self-pairs and no duplicate unordered
pairs, in declaration order. -/
theorem claim_C5_strong_correlations (df : PDataFrame) (schema : PSchema)
    (hn : schema.numeric_columns.Nodup)
    (hlen : 1 < schema.numeric_columns.length) :
    ∃ co, correlation_analysis df schema = some co ∧
      co.strong = strong_correlations df schema.numeric_columns ∧
      (∀ rec : StrongCorr, rec ∈ co.strong ↔
        ∃ i j : ℕ, i < j ∧
          schema.numeric_columns[i]? = some rec.column1 ∧
          schema.numeric_columns[j]? = some rec.column2 ∧
          ∃ r, pearsonEntry df rec.column1 rec.column2 = some r ∧
            (7 : ℝ) / 10 < |r.val| ∧ rec.correlation = r ∧
            ((8 : ℝ) / 10 < |r.val| → rec.strength = "strong") ∧
            (¬((8 : ℝ) / 10 < |r.val|) → rec.strength = "moderate")) ∧
      (∀ rec ∈ co.strong, rec.column1 ≠ rec.column2) ∧
      (∀ r1 ∈ co.strong, ∀ r2 ∈ co.strong,
        r1.column1 = r2.column2 → r1.column2 = r2.column1 → False) ∧
      ((co.strong.map (fun rec => (rec.column1, rec.column2))).Nodup) ∧
      co.strong.Pairwise (fun r1 r2 =>
        schema.numeric_columns.indexOf r1.column1 <
          schema.numeric_columns.indexOf r2.column1 ∨
        (r1.column1 = r2.column1 ∧
          schema.numeric_columns.indexOf r1.column2 <
            schema.numeric_columns.indexOf r2.column2)) := by
  set nc := schema.numeric_columns with hnc
  have habs : ∀ (r : SqrtQ) (a b : String),
      pearsonEntry df a b = some r →
      ((r.absGtQ (7 / 10) = true ↔ (7 : ℝ) / 10 < |r.val|) ∧
        (r.absGtQ (8 / 10) = true ↔ (8 : ℝ) / 10 < |r.val|)) := by
    intro r a b hpe
    have hrad := (pearsonEntry_rad_pos df a b r hpe).le
    constructor
    · rw [r.absGtQ_iff _ hrad]
      norm_num
    · rw [r.absGtQ_iff _ hrad]
      norm_num
  have hmemiff : ∀ rec : StrongCorr,
      rec ∈ strong_correlations df nc ↔
      ∃ i j : ℕ, i < j ∧ nc[i]? = some rec.column1 ∧
        nc[j]? = some rec.column2 ∧
        ∃ r, pearsonEntry df rec.column1 rec.column2 = some r ∧
          (7 : ℝ) / 10 < |r.val| ∧ rec.correlation = r ∧
          ((8 : ℝ) / 10 < |r.val| → rec.strength = "strong") ∧
          (¬((8 : ℝ) / 10 < |r.val|) → rec.strength = "moderate") := by
    intro rec
    unfold strong_correlations
    rw [List.mem_filterMap]
    constructor
    · rintro ⟨p, hp, hsc⟩
      obtain ⟨r, hpe, h7, hrec⟩ := (strongCorrOf_eq_some df p rec).mp hsc
      obtain ⟨p1, p2⟩ := p
      obtain ⟨i, j, hij, hpi, hpj⟩ := (mem_listPairs nc p1 p2).mp hp
      have hc1 : rec.column1 = p1 := by rw [hrec]
      have hc2 : rec.column2 = p2 := by rw [hrec]
      refine ⟨i, j, hij, by rw [hc1]; exact hpi, by rw [hc2]; exact hpj,
        r, by rw [hc1, hc2]; exact hpe, ?_, ?_, ?_, ?_⟩
      · exact ((habs r p1 p2 hpe).1).mp h7
      · rw [hrec]
      · intro h8
        rw [hrec]
        show (if r.absGtQ (8 / 10) then "strong" else "moderate") = "strong"
        rw [if_pos (((habs r p1 p2 hpe).2).mpr h8)]
      · intro h8
        rw [hrec]
        show (if r.absGtQ (8 / 10) then "strong" else "moderate") = "moderate"
        rw [if_neg (fun hb => h8 (((habs r p1 p2 hpe).2).mp hb))]
    · rintro ⟨i, j, hij, hpi, hpj, r, hpe, h7, hcorr, h8s, h8m⟩
      refine ⟨(rec.column1, rec.column2),
        (mem_listPairs nc rec.column1 rec.column2).mpr ⟨i, j, hij, hpi, hpj⟩,
        ?_⟩
      rw [strongCorrOf_eq_some]
      refine ⟨r, hpe, ((habs r rec.column1 rec.column2 hpe).1).mpr h7, ?_⟩
      obtain ⟨c1, c2, corr, str⟩ := rec
      simp only at hcorr h8s h8m ⊢
      simp only [StrongCorr.mk.injEq, true_and]
      refine ⟨hcorr, ?_⟩
      by_cases h8 : r.absGtQ (8 / 10) = true
      · rw [if_pos h8]
        exact h8s (((habs r c1 c2 hpe).2).mp h8)
      · rw [if_neg h8]
        exact h8m (fun hb => h8 (((habs r c1 c2 hpe).2).mpr hb))
  have hpw : (strong_correlations df nc).Pairwise (fun r1 r2 =>
      nc.indexOf r1.column1 < nc.indexOf r2.column1 ∨
      (r1.column1 = r2.column1 ∧
        nc.indexOf r1.column2 < nc.indexOf r2.column2)) := by
    unfold strong_correlations
    rw [List.pairwise_filterMap]
    refine (pairwise_listPairs nc hn).imp ?_
    intro p q hpq rec1 hrec1 rec2 hrec2
    have h1 := strongCorrOf_columns df p rec1 (Option.mem_def.mp hrec1)
    have h2 := strongCorrOf_columns df q rec2 (Option.mem_def.mp hrec2)
    rw [h1.1, h1.2, h2.1, h2.2]
    exact hpq
  refine ⟨⟨corrMatrix (pearsonEntry df) nc, corrMatrix (spearmanEntry df) nc,
    strong_correlations df nc⟩, ?_, rfl, hmemiff, ?_, ?_, ?_, hpw⟩
  · unfold correlation_analysis
    rw [if_pos hlen]
  · intro rec hrec
    obtain ⟨i, j, hij, hpi, hpj, _⟩ := (hmemiff rec).mp hrec
    exact nodup_getElem?_ne nc hn i j (Nat.ne_of_lt hij) _ _ hpi hpj
  · intro r1 hr1 r2 hr2 hc12 hc21
    obtain ⟨i, j, hij, hpi, hpj, _⟩ := (hmemiff r1).mp hr1
    obtain ⟨i', j', hij', hpi', hpj', _⟩ := (hmemiff r2).mp hr2
    rw [hc12] at hpi
    rw [hc21] at hpj
    have hij' : i = j' := nodup_getElem?_inj nc hn i j' _ hpi hpj'
    have hji' : j = i' := nodup_getElem?_inj nc hn j i' _ hpj hpi'
    omega
  · rw [List.Nodup, List.pairwise_map]
    refine hpw.imp ?_
    intro r1 r2 h heq
    have he1 : r1.column1 = r2.column1 := congrArg Prod.fst heq
    have he2 : r1.column2 = r2.column2 := congrArg Prod.snd heq
    rcases h with h | ⟨_, h⟩
    · rw [he1] at h
      exact lt_irrefl _ h
    · rw [he2] at h
      exact lt_irrefl _ h

/-- A frame with two strongly correlated numeric columns. -/
def dfC5 : PDataFrame :=
  ⟨[⟨"a", .numeric, [some (.num 1), some (.num 2), some (.num 3)]⟩,
    ⟨"b", .numeric, [some (.num 2), some (.num 4), some (.num 7)]⟩], 0⟩

/-- The schema inferred for `dfC5`. -/
def schemaC5 : PSchema := ⟨["a", "b"], [], [], [], []⟩

/-- Witness for C5 at the concrete frame `dfC5`. -/
theorem claim_C5_strong_correlations_witness :
    (schemaC5.numeric_columns.Nodup ∧
      1 < schemaC5.numeric_columns.length) ∧
    (∃ co, correlation_analysis dfC5 schemaC5 = some co ∧
      co.strong = strong_correlations dfC5 schemaC5.numeric_columns ∧
      (∀ rec : StrongCorr, rec ∈ co.strong ↔
        ∃ i j : ℕ, i < j ∧
          schemaC5.numeric_columns[i]? = some rec.column1 ∧
          schemaC5.numeric_columns[j]? = some rec.column2 ∧
          ∃ r, pearsonEntry dfC5 rec.column1 rec.column2 = some r ∧
            (7 : ℝ) / 10 < |r.val| ∧ rec.correlation = r ∧
            ((8 : ℝ) / 10 < |r.val| → rec.strength = "strong") ∧
            (¬((8 : ℝ) / 10 < |r.val|) → rec.strength = "moderate")) ∧
      (∀ rec ∈ co.strong, rec.column1 ≠ rec.column2) ∧
      (∀ r1 ∈ co.strong, ∀ r2 ∈ co.strong,
        r1.column1 = r2.column2 → r1.column2 = r2.column1 → False) ∧
      ((co.strong.map (fun rec => (rec.column1, rec.column2))).Nodup) ∧
      co.strong.Pairwise (fun r1 r2 =>
        schemaC5.numeric_columns.indexOf r1.column1 <
          schemaC5.numeric_columns.indexOf r2.column1 ∨
        (r1.column1 = r2.column1 ∧
          schemaC5.numeric_columns.indexOf r1.column2 <
            schemaC5.numeric_columns.indexOf r2.column2))) :=
  ⟨⟨by decide, by decide⟩,
    claim_C5_strong_correlations dfC5 schemaC5 (by decide) (by decide)⟩

end AnalyticsEngine
